import Mathlib

/-!
# Sampada research API: statement locator and report-table parser

A shallow embedding of `src/scripts/parser.go` (`ParseFilingSummary`,
`ParseBalanceSheet`, `ParseIncomeOrCashFlowStatement`).

Modelling conventions.

* A Go panic (index out of range, nil dereference) aborts the call; the
  parsers therefore return `Except Fault _`.
* The parsed HTML document is represented by the answers it gives to the
  queries the parsers make through the `soup` package: the rows of the first
  `table`, for each row the texts of its `th` cells and its `td` cells (with
  the `onclick` attribute of the first `a` inside each `td`), and, for each
  concept identifier, the `div`s inside the `div class="body"` of the
  definition table carrying that id.
* When an element is not found, `soup` hands back a root whose node is nil,
  and the next query on that root dereferences it: the fault `nilPointer`.
  Unguarded slice indexing is the fault `indexOutOfRange`.
* `strings.ToLower` is a parameter `lower` of `ParseFilingSummary`: every
  theorem holds for any lowering function, Go's Unicode one included.
-/

namespace Sampada

/-! ## Go runtime helpers -/

/-- Run-time faults that abort a Go call. -/
inductive Fault where
  | indexOutOfRange
  | nilPointer
  deriving DecidableEq, Repr

/-- Checked slice indexing: `xs[i]` in Go. -/
def idx {α : Type} (xs : List α) (i : Nat) : Except Fault α :=
  match xs[i]? with
  | some x => .ok x
  | none => .error .indexOutOfRange

/-- Does `s` start with `p`? -/
def hasPrefixChars : List Char → List Char → Bool
  | _, [] => true
  | [], _ :: _ => false
  | c :: s, d :: p => c == d && hasPrefixChars s p

/-- Substring test on character lists. -/
def containsChars : List Char → List Char → Bool
  | [], sub => hasPrefixChars [] sub
  | c :: s, sub => hasPrefixChars (c :: s) sub || containsChars s sub

/-- Go `strings.Contains(s, sub)`. -/
def strContains (s sub : String) : Bool := containsChars s.data sub.data

/-- Remove the first (leftmost) occurrence of `old` from a character list. -/
def removeFirstChars : List Char → List Char → List Char
  | [], _ => []
  | c :: s, old =>
    if hasPrefixChars (c :: s) old then (c :: s).drop old.length
    else c :: removeFirstChars s old

/-- Go `strings.Replace(s, old, "", 1)`. -/
def removeFirst (s old : String) : String := ⟨removeFirstChars s.data old.data⟩

/-- ASCII lowering, used to instantiate `strings.ToLower` on concrete inputs. -/
def asciiLower (s : String) : String := ⟨s.data.map Char.toLower⟩

/-! ## Data model -/

/-- One `Report` element of the filing summary (the two fields that are read). -/
structure Report where
  HtmlFileName : String
  LongName : String
  deriving DecidableEq, Repr

/-- The filing summary: `MyReports.Report`, in document order. -/
structure FilingSummary where
  MyReports : List Report
  deriving DecidableEq, Repr

structure BalanceSheetItem where
  Year : String
  Quarter : String
  CIK : String
  Title : String
  Date : String
  Item : String
  Value : String
  Axis : String
  Abstract : String
  Tag : String
  Definition : String
  DataType : String
  BalanceType : String
  PeriodType : String
  deriving DecidableEq, Repr

structure IncomeOrCashFlowStatementItem where
  Year : String
  Quarter : String
  CIK : String
  Title : String
  Date : String
  Item : String
  Value : String
  Duration : String
  Axis : String
  Abstract : String
  Tag : String
  Definition : String
  DataType : String
  BalanceType : String
  PeriodType : String
  deriving DecidableEq, Repr

/-- A `td` cell: its `FullText()` and the `onclick` attribute of the first `a`
element inside it (`none` when the cell holds no `a`; `some ""` when the `a`
has no such attribute, as the Go map lookup gives). -/
structure Td where
  text : String
  onclick : Option String
  deriving DecidableEq, Repr

/-- A `tr` row: `FullText()` of each `th` (`row.FindAll("th")`) and its `td`
cells (`row.FindAll("td")`), both in document order. -/
structure Tr where
  ths : List String
  tds : List Td
  deriving DecidableEq, Repr

/-- One `div` inside a definition block: the `Text()` of its first `p`
(`none` when it has no `p`) and, for each of its `tr`, the `Text()` of each
`td`. -/
structure MetaDiv where
  p : Option String
  trs : List (List String)
  deriving DecidableEq, Repr

/-- The parsed document as seen by the parsers. `table` is
`doc.Find("table").FindAll("tr")` (`none` when there is no `table`);
`body tag` is `FindAll("div")` of
`doc.Find("table","id",tag).Find("tr").FindNextElementSibling().Find("div","class","body")`
(`none` when a link of that chain is missing). -/
structure Document where
  table : Option (List Tr)
  body : String → Option (List MetaDiv)

/-! ## ParseFilingSummary -/

def balanceSheetNames : List String :=
  ["balance sheet", "statements of financial condition", "statements of condition"]

def incomeStatementNames : List String :=
  ["statements of income", "statements of operation", "statement of income",
   "statements of earnings", "statements of comprehensive loss",
   "statement of operations and comprehensive loss"]

def cashFlowStatementNames : List String :=
  ["statements of cash flow", "statement of cash flow"]

/-- The variables of `ParseFilingSummary` (lines 104-109). -/
structure SummaryState where
  balanceSheetFound : Bool := false
  incomeStatementFound : Bool := false
  cashFlowStatementFound : Bool := false
  balanceSheetURL : String := ""
  incomeStatementURL : String := ""
  cashFlowStatementURL : String := ""
  deriving DecidableEq, Repr

/-- Lines 111-117: the loop over `balanceSheetNames` for one report, on the
pair (`balanceSheetFound`, `balanceSheetURL`). -/
def balanceSheetNameLoop (lower : String → String) (url : String) (report : Report) :
    List String → Bool × String → Bool × String
  | [], st => st
  | name :: rest, (found, u) =>
    if !found && strContains (lower report.LongName) name
        && !strContains (lower report.LongName) "parenthetical" then
      (true, url ++ "/" ++ report.HtmlFileName)
    else balanceSheetNameLoop lower url report rest (found, u)

/-- Lines 118-124 and 125-131: the loop over the income-statement (resp.
cash-flow) names for one report, on the pair (found flag, URL). -/
def statementNameLoop (lower : String → String) (url : String) (report : Report) :
    List String → Bool × String → Bool × String
  | [], st => st
  | name :: rest, (found, u) =>
    if !found && strContains (lower report.LongName) name then
      (true, url ++ "/" ++ report.HtmlFileName)
    else statementNameLoop lower url report rest (found, u)

/-- Lines 111-131: the three name loops run for one report. -/
def reportStep (lower : String → String) (url : String) (st : SummaryState)
    (report : Report) : SummaryState :=
  let b := balanceSheetNameLoop lower url report balanceSheetNames
    (st.balanceSheetFound, st.balanceSheetURL)
  let i := statementNameLoop lower url report incomeStatementNames
    (st.incomeStatementFound, st.incomeStatementURL)
  let c := statementNameLoop lower url report cashFlowStatementNames
    (st.cashFlowStatementFound, st.cashFlowStatementURL)
  { balanceSheetFound := b.1, balanceSheetURL := b.2,
    incomeStatementFound := i.1, incomeStatementURL := i.2,
    cashFlowStatementFound := c.1, cashFlowStatementURL := c.2 }

/-- Lines 110-135: the loop over the reports, with its early exit (lines
132-134). -/
def reportLoop (lower : String → String) (url : String) :
    List Report → SummaryState → SummaryState
  | [], st => st
  | report :: rest, st =>
    let st1 := reportStep lower url st report
    if st1.balanceSheetFound && st1.incomeStatementFound && st1.cashFlowStatementFound then st1
    else reportLoop lower url rest st1

def ParseFilingSummary (lower : String → String) (filingSummaryObject : FilingSummary)
    (filingDirectoryIndexURL : String) : String × String × String :=
  let st := reportLoop lower filingDirectoryIndexURL filingSummaryObject.MyReports {}
  (st.balanceSheetURL, st.incomeStatementURL, st.cashFlowStatementURL)

/-! ## The report-table parsers -/

/-- Lines 157 and 225: strip the fixed prefix and suffix from the `onclick`
attribute. -/
def xbrlTagOf (onclick : String) : String :=
  removeFirst (removeFirst onclick "top.Show.showAR( this, '") "', window );"

/-- The attribute read on lines 157 and 225:
`row.Find("td").Find("a").Attrs()["onclick"]`. A row without `td`, or whose
first `td` holds no `a`, makes `soup` dereference a nil node. -/
def rowOnclick (row : Tr) : Except Fault String :=
  match row.tds with
  | [] => .error .nilPointer
  | td :: _ =>
    match td.onclick with
    | none => .error .nilPointer
    | some v => .ok v

/-- The local variables of the two parsers (lines 141-144 and 200-205);
`datesFound` and `duration` are used by `ParseIncomeOrCashFlowStatement`
only. -/
structure ParseState where
  columnHeadersFound : Bool := false
  datesFound : Bool := false
  columnHeaders : List String := []
  title : String := ""
  duration : String := ""
  dates : List String := []
  values : List (List String) := []
  axis : String := ""
  abstract : String := ""
  items : List String := []
  axes : List String := []
  abstracts : List String := []
  tags : List String := []
  deriving DecidableEq, Repr

/-- Lines 166-174 and 234-242: the loop over the `td` cells of a data row,
`i` being the loop index. -/
def cellLoop : Nat → List Td → List String → List (List String) → Bool →
    Except Fault (List String × List (List String))
  | _, [], items, values, _ => .ok (items, values)
  | i, value :: rest, items, values, itemFound =>
    if !itemFound then
      cellLoop (i + 1) rest (items ++ [value.text]) values true
    else
      match values[i - 1]? with
      | none => .error .indexOutOfRange
      | some col => cellLoop (i + 1) rest items (values.set (i - 1) (col ++ [value.text])) true

/-- Lines 157-178 and 225-245: one body row. -/
def bodyRow (st : ParseState) (row : Tr) : Except Fault ParseState :=
  match rowOnclick row with
  | .error e => .error e
  | .ok onclick =>
    let xbrlTag := xbrlTagOf onclick
    if strContains xbrlTag "Axis" then .ok { st with axis := xbrlTag }
    else if strContains xbrlTag "Abstract" then .ok { st with abstract := xbrlTag }
    else
      match cellLoop 0 row.tds st.items st.values false with
      | .error e => .error e
      | .ok (items, values) =>
        .ok { st with items := items, values := values, axes := st.axes ++ [st.axis],
                      abstracts := st.abstracts ++ [st.abstract], tags := st.tags ++ [xbrlTag] }

/-- Lines 146-179: the row loop of `ParseBalanceSheet`. -/
def balanceSheetRowLoop : List Tr → ParseState → Except Fault ParseState
  | [], st => .ok st
  | row :: rest, st =>
    if !st.columnHeadersFound then
      let columnHeaders := st.columnHeaders ++ row.ths
      match idx columnHeaders 0 with
      | .error e => .error e
      | .ok title =>
        let dates := columnHeaders.drop 1
        balanceSheetRowLoop rest
          { st with columnHeaders := columnHeaders, columnHeadersFound := true, title := title,
                    dates := dates, values := List.replicate dates.length [] }
    else
      match bodyRow st row with
      | .error e => .error e
      | .ok st1 => balanceSheetRowLoop rest st1

/-- Lines 207-246: the row loop of `ParseIncomeOrCashFlowStatement`. -/
def incomeOrCashFlowRowLoop : List Tr → ParseState → Except Fault ParseState
  | [], st => .ok st
  | row :: rest, st =>
    if !st.columnHeadersFound then
      let columnHeaders := st.columnHeaders ++ row.ths
      match idx columnHeaders 0 with
      | .error e => .error e
      | .ok title =>
        match idx columnHeaders 1 with
        | .error e => .error e
        | .ok duration =>
          incomeOrCashFlowRowLoop rest
            { st with columnHeaders := columnHeaders, columnHeadersFound := true, title := title,
                      duration := duration }
    else if !st.datesFound then
      let dates := st.dates ++ row.ths
      incomeOrCashFlowRowLoop rest
        { st with dates := dates, values := List.replicate dates.length [], datesFound := true }
    else
      match bodyRow st row with
      | .error e => .error e
      | .ok st1 => incomeOrCashFlowRowLoop rest st1

/-- The four metadata columns built on lines 181-187 and 248-254. -/
structure MetaCols where
  definitions : List String := []
  dataTypes : List String := []
  balanceTypes : List String := []
  periodTypes : List String := []
  deriving DecidableEq, Repr

/-- `div.Find("div").Find("p").Text()`. -/
def definitionText (divs : List MetaDiv) : Except Fault String :=
  match divs with
  | [] => .error .nilPointer
  | d :: _ =>
    match d.p with
    | none => .error .nilPointer
    | some t => .ok t

/-- `div.FindAll("div")[2].FindAll("tr")[k].FindAll("td")[1].Text()`. -/
def detailText (divs : List MetaDiv) (k : Nat) : Except Fault String :=
  match idx divs 2 with
  | .error e => .error e
  | .ok d =>
    match idx d.trs k with
    | .error e => .error e
    | .ok tr => idx tr 1

/-- Lines 181-187 and 248-254: the loop over `tags`. -/
def metadataLoop (doc : Document) : List String → MetaCols → Except Fault MetaCols
  | [], m => .ok m
  | tag :: rest, m =>
    match doc.body tag with
    | none => .error .nilPointer
    | some divs =>
      match definitionText divs with
      | .error e => .error e
      | .ok definition =>
        match detailText divs 2 with
        | .error e => .error e
        | .ok dataType =>
          match detailText divs 3 with
          | .error e => .error e
          | .ok balanceType =>
            match detailText divs 4 with
            | .error e => .error e
            | .ok periodType =>
              metadataLoop doc rest
                { definitions := m.definitions ++ [definition],
                  dataTypes := m.dataTypes ++ [dataType],
                  balanceTypes := m.balanceTypes ++ [balanceType],
                  periodTypes := m.periodTypes ++ [periodType] }

/-- Lines 191-192: the body of the inner loop of `ParseBalanceSheet`. -/
def balanceSheetEmit (year qtr cik : String) (st : ParseState) (m : MetaCols) (ii : Nat)
    (acc : List BalanceSheetItem) (i : Nat) : Except Fault (List BalanceSheetItem) := do
  let date ← idx st.dates ii
  let item ← idx st.items i
  let col ← idx st.values ii
  let value ← idx col i
  let axis ← idx st.axes i
  let abstract ← idx st.abstracts i
  let tag ← idx st.tags i
  let definition ← idx m.definitions i
  let dataType ← idx m.dataTypes i
  let balanceType ← idx m.balanceTypes i
  let periodType ← idx m.periodTypes i
  pure (acc ++ [{ Year := year, Quarter := qtr, CIK := cik, Title := st.title, Date := date,
                  Item := item, Value := value, Axis := axis, Abstract := abstract, Tag := tag,
                  Definition := definition, DataType := dataType, BalanceType := balanceType,
                  PeriodType := periodType }])

/-- Lines 258-259: the body of the inner loop of
`ParseIncomeOrCashFlowStatement`. -/
def incomeOrCashFlowEmit (year qtr cik : String) (st : ParseState) (m : MetaCols) (ii : Nat)
    (acc : List IncomeOrCashFlowStatementItem) (i : Nat) :
    Except Fault (List IncomeOrCashFlowStatementItem) := do
  let date ← idx st.dates ii
  let item ← idx st.items i
  let col ← idx st.values ii
  let value ← idx col i
  let axis ← idx st.axes i
  let abstract ← idx st.abstracts i
  let tag ← idx st.tags i
  let definition ← idx m.definitions i
  let dataType ← idx m.dataTypes i
  let balanceType ← idx m.balanceTypes i
  let periodType ← idx m.periodTypes i
  pure (acc ++ [{ Year := year, Quarter := qtr, CIK := cik, Title := st.title, Date := date,
                  Item := item, Value := value, Duration := st.duration, Axis := axis,
                  Abstract := abstract, Tag := tag, Definition := definition,
                  DataType := dataType, BalanceType := balanceType, PeriodType := periodType }])

def ParseBalanceSheet (doc : Document) (year qtr cik : String) :
    Except Fault (List BalanceSheetItem) :=
  match doc.table with
  | none => .error .nilPointer
  | some rows =>
    match balanceSheetRowLoop rows {} with
    | .error e => .error e
    | .ok st =>
      match metadataLoop doc st.tags {} with
      | .error e => .error e
      | .ok m =>
        (List.range st.dates.length).foldlM
          (fun acc ii =>
            (List.range st.items.length).foldlM (balanceSheetEmit year qtr cik st m ii) acc)
          []

def ParseIncomeOrCashFlowStatement (doc : Document) (year qtr cik : String) :
    Except Fault (List IncomeOrCashFlowStatementItem) :=
  match doc.table with
  | none => .error .nilPointer
  | some rows =>
    match incomeOrCashFlowRowLoop rows {} with
    | .error e => .error e
    | .ok st =>
      match metadataLoop doc st.tags {} with
      | .error e => .error e
      | .ok m =>
        (List.range st.dates.length).foldlM
          (fun acc ii =>
            (List.range st.items.length).foldlM (incomeOrCashFlowEmit year qtr cik st m ii) acc)
          []

/-! ## Vocabulary of the specification -/

/-- The concept identifier of a body row: the stripped `onclick` attribute of
the first `a` of its first `td` (the empty string when the row has none). -/
def rowId (row : Tr) : String :=
  match rowOnclick row with
  | .ok v => xbrlTagOf v
  | .error _ => ""

/-- The row carries a concept identifier: its first `td` exists and holds an
`a` element. -/
def hasId (row : Tr) : Bool :=
  match rowOnclick row with
  | .ok _ => true
  | .error _ => false

/-- An identifier that marks an Axis row. -/
def isAxisId (t : String) : Bool := strContains t "Axis"

/-- An identifier that marks an Abstract row (the Axis test comes first). -/
def isAbstractId (t : String) : Bool := !strContains t "Axis" && strContains t "Abstract"

/-- An identifier of a data row: it contains neither "Axis" nor "Abstract". -/
def isDataId (t : String) : Bool := !strContains t "Axis" && !strContains t "Abstract"

def isDataRow (row : Tr) : Bool := isDataId (rowId row)

/-- The label cell of a row: the text of its first `td`. -/
def labelCell (row : Tr) : Option String := row.tds.head?.map Td.text

/-- The value cells of a row: the texts of the `td` cells after the first. -/
def valueCells (row : Tr) : List String := (row.tds.drop 1).map Td.text

/-- A complete metadata block: at least three `div`s, the first with a `p`, the
third with rows 2, 3 and 4 present and holding at least two `td` each. -/
def completeBlock (divs : List MetaDiv) : Bool :=
  match divs with
  | d0 :: _ :: d2 :: _ =>
    d0.p.isSome && [2, 3, 4].all fun k =>
      match d2.trs[k]? with
      | some tr => decide (2 ≤ tr.length)
      | none => false
  | _ => false

/-- The tag has a complete metadata block in the document. -/
def completeMetadata (doc : Document) (tag : String) : Bool :=
  match doc.body tag with
  | none => false
  | some divs => completeBlock divs

/-- A well-formed table body for `n` date columns: every row carries a concept
identifier, and every data row has exactly `n` value cells after its label
cell and a complete metadata block for its tag. -/
def wellFormedBody (doc : Document) (n : Nat) (body : List Tr) : Bool :=
  body.all fun row =>
    hasId row && (!isDataRow row || (row.tds.length == n + 1 && completeMetadata doc (rowId row)))

/-- The definition text of a tag (empty when it cannot be read). -/
def definitionOf (doc : Document) (tag : String) : String :=
  match doc.body tag with
  | none => ""
  | some divs =>
    match definitionText divs with
    | .ok t => t
    | .error _ => ""

/-- The second cell of row `k` of the details table of a tag (empty when it
cannot be read). -/
def detailOf (doc : Document) (k : Nat) (tag : String) : String :=
  match doc.body tag with
  | none => ""
  | some divs =>
    match detailText divs k with
    | .ok t => t
    | .error _ => ""

/-- The identifier of the most recent Axis marker row among `rows` (the rows
that precede a given row), or the empty string. -/
def lastAxis (rows : List Tr) : String :=
  ((rows.reverse.map rowId).find? isAxisId).getD ""

/-- The identifier of the most recent Abstract marker row among `rows`, or the
empty string. -/
def lastAbstract (rows : List Tr) : String :=
  ((rows.reverse.map rowId).find? isAbstractId).getD ""

/-! ## Proof devices: the row-wise reading of the column-wise state -/

/-- A data row together with the Axis and Abstract in force when it is read. -/
structure Carried where
  row : Tr
  axis : String
  abstract : String

/-- The data rows of a body with their carried markers, starting from the
markers `a` and `b`. -/
def scan : String → String → List Tr → List Carried
  | _, _, [] => []
  | a, b, r :: rs =>
    if strContains (rowId r) "Axis" then scan (rowId r) b rs
    else if strContains (rowId r) "Abstract" then scan a (rowId r) rs
    else ⟨r, a, b⟩ :: scan a b rs

/-- The `n` columns of a list of value rows. -/
def cols (n : Nat) (vss : List (List String)) : List (List String) :=
  (List.range n).map fun ii => vss.map fun vs => vs.getD ii ""

/-- The row loop once the header rows are consumed. -/
def bodyLoop : List Tr → ParseState → Except Fault ParseState
  | [], st => .ok st
  | r :: rs, st =>
    match bodyRow st r with
    | .error e => .error e
    | .ok st1 => bodyLoop rs st1

/-- The accumulators of `st` hold exactly the data rows `ds`. -/
def Repr (n : Nat) (st : ParseState) (ds : List Carried) : Prop :=
  st.items = ds.map (fun d => (labelCell d.row).getD "") ∧
  st.values = cols n (ds.map fun d => valueCells d.row) ∧
  st.axes = ds.map Carried.axis ∧
  st.abstracts = ds.map Carried.abstract ∧
  st.tags = ds.map fun d => rowId d.row

/-- The header variables are unchanged between two states. -/
def Frame (st st1 : ParseState) : Prop :=
  st1.columnHeadersFound = st.columnHeadersFound ∧ st1.datesFound = st.datesFound ∧
  st1.columnHeaders = st.columnHeaders ∧ st1.title = st.title ∧
  st1.duration = st.duration ∧ st1.dates = st.dates

/-- The record emitted for data row `d` under date column `ii`. -/
def balanceSheetRecord (doc : Document) (year qtr cik title date : String) (ii : Nat)
    (d : Carried) : BalanceSheetItem :=
  { Year := year, Quarter := qtr, CIK := cik, Title := title, Date := date,
    Item := (labelCell d.row).getD "", Value := (valueCells d.row).getD ii "",
    Axis := d.axis, Abstract := d.abstract, Tag := rowId d.row,
    Definition := definitionOf doc (rowId d.row), DataType := detailOf doc 2 (rowId d.row),
    BalanceType := detailOf doc 3 (rowId d.row), PeriodType := detailOf doc 4 (rowId d.row) }

/-- The duration-style record emitted for data row `d` under date column `ii`. -/
def incomeOrCashFlowRecord (doc : Document) (year qtr cik title duration date : String)
    (ii : Nat) (d : Carried) : IncomeOrCashFlowStatementItem :=
  { Year := year, Quarter := qtr, CIK := cik, Title := title, Date := date,
    Item := (labelCell d.row).getD "", Value := (valueCells d.row).getD ii "",
    Duration := duration,
    Axis := d.axis, Abstract := d.abstract, Tag := rowId d.row,
    Definition := definitionOf doc (rowId d.row), DataType := detailOf doc 2 (rowId d.row),
    BalanceType := detailOf doc 3 (rowId d.row), PeriodType := detailOf doc 4 (rowId d.row) }

/-! ## Concrete documents -/

/-- The `onclick` attribute that wraps the identifier `id`. -/
def onclickOf (id : String) : String := "top.Show.showAR( this, '" ++ id ++ "', window );"

/-- A label cell whose link carries the identifier `id`. -/
def labelTd (text id : String) : Td := ⟨text, some (onclickOf id)⟩

/-- A value cell. -/
def valueTd (text : String) : Td := ⟨text, none⟩

/-- A complete metadata block. -/
def sampleBlock : List MetaDiv :=
  [⟨some "Amount of currency on hand.", []⟩, ⟨some "Reference 1", []⟩,
   ⟨none, [["Name:", "us-gaap_Cash"], ["Namespace Prefix:", "us-gaap_"],
           ["Data Type:", "xbrli:monetaryItemType"], ["Balance Type:", "debit"],
           ["Period Type:", "instant"]]⟩]

/-- The body of the end-to-end scenario: one Abstract marker row and one data
row. -/
def scenarioBody : List Tr :=
  [⟨[], [labelTd "Current assets:" "CurrentAssetsAbstract"]⟩,
   ⟨[], [labelTd "Cash" "Cash", valueTd "100", valueTd "90"]⟩]

def scenarioHeader : Tr := ⟨["Total Assets", "Dec. 31, 2020", "Dec. 31, 2019"], []⟩

/-- The end-to-end scenario as a balance-sheet page. -/
def scenarioDoc : Document :=
  { table := some (scenarioHeader :: scenarioBody),
    body := fun t => if t = "Cash" then some sampleBlock else none }

def durationHeader : Tr := ⟨["Statements of Income", "12 Months Ended"], []⟩

def datesHeader : Tr := ⟨["Dec. 31, 2020", "Dec. 31, 2019"], []⟩

/-- The same scenario as a duration-style page. -/
def durationDoc : Document :=
  { table := some (durationHeader :: datesHeader :: scenarioBody),
    body := fun t => if t = "Cash" then some sampleBlock else none }

/-- The Axis in force after reading `rows`, starting from `a`. -/
def axisAfter (a : String) (rows : List Tr) : String :=
  rows.foldl (fun a r => if strContains (rowId r) "Axis" then rowId r else a) a

/-- The Abstract in force after reading `rows`, starting from `b`. -/
def abstractAfter (b : String) (rows : List Tr) : String :=
  rows.foldl
    (fun b r =>
      if strContains (rowId r) "Axis" then b
      else if strContains (rowId r) "Abstract" then rowId r else b) b

/-- The carry-forward example: Axis marker, item, Abstract marker, item, Axis
marker, item. -/
def carryBody : List Tr :=
  [⟨[], [labelTd "Class [Axis]" "A1Axis"]⟩,
   ⟨[], [labelTd "Cash" "Cash", valueTd "100"]⟩,
   ⟨[], [labelTd "Assets [Abstract]" "B1Abstract"]⟩,
   ⟨[], [labelTd "Inventory" "Inventory", valueTd "40"]⟩,
   ⟨[], [labelTd "Segment [Axis]" "A2Axis"]⟩,
   ⟨[], [labelTd "Goodwill" "Goodwill", valueTd "7"]⟩]

/-- The carry-forward example as a balance-sheet page with one date column. -/
def carryDoc : Document :=
  { table := some (⟨["Balance Sheet", "Dec. 31, 2020"], []⟩ :: carryBody),
    body := fun _ => some sampleBlock }

/-- The carry-forward example as a duration-style page with one date column. -/
def carryDurationDoc : Document :=
  { table := some (durationHeader :: ⟨["Dec. 31, 2020"], []⟩ :: carryBody),
    body := fun _ => some sampleBlock }

/-! ## Vocabulary of the statement locator -/

/-- The lowercased title contains one of the name fragments. -/
def containsAny (lower : String → String) (names : List String) (r : Report) : Bool :=
  names.any fun name => strContains (lower r.LongName) name

/-- The lowercased title contains "parenthetical". -/
def isParenthetical (lower : String → String) (r : Report) : Bool :=
  strContains (lower r.LongName) "parenthetical"

/-- A report matches the balance-sheet kind: one of its fragments is present and
the exclusion fragment is not. -/
def matchesBalanceSheet (lower : String → String) (r : Report) : Bool :=
  containsAny lower balanceSheetNames r && !isParenthetical lower r

/-- A report matches the income-statement kind. -/
def matchesIncomeStatement (lower : String → String) (r : Report) : Bool :=
  containsAny lower incomeStatementNames r

/-- A report matches the cash-flow kind. -/
def matchesCashFlowStatement (lower : String → String) (r : Report) : Bool :=
  containsAny lower cashFlowStatementNames r

/-- The URL of a report page. -/
def reportURL (url : String) (r : Report) : String := url ++ "/" ++ r.HtmlFileName

/-- The URL of the first report of the catalog that satisfies `p`, or the empty
string. -/
def firstURL (url : String) (p : Report → Bool) (reports : List Report) : String :=
  match reports.find? p with
  | some r => reportURL url r
  | none => ""

/-- One report seen by one kind: the pair (found flag, URL) is set by the first
matching report only. -/
def slotStep (p : Report → Bool) (url : String) (slot : Bool × String) (r : Report) :
    Bool × String :=
  if !slot.1 && p r then (true, reportURL url r) else slot

/-- A catalog with two income statements, a balance sheet and its
parenthetical companion. -/
def sampleCatalog : FilingSummary :=
  ⟨[⟨"R1.htm", "Cover Page"⟩,
    ⟨"R2.htm", "Consolidated Balance Sheets"⟩,
    ⟨"R3.htm", "Consolidated Balance Sheets (Parenthetical)"⟩,
    ⟨"R4.htm", "Consolidated Statements of Income"⟩,
    ⟨"R5.htm", "Consolidated Statements of Income (Restated)"⟩]⟩

/-- The two balance-sheet reports of the specification, in its order. -/
def parentheticalCatalog : FilingSummary :=
  ⟨[⟨"R2.htm", "Consolidated Balance Sheets"⟩,
    ⟨"R3.htm", "Consolidated Balance Sheets (Parenthetical)"⟩]⟩

/-- The same two reports in the opposite order, followed by a parenthetical
income statement. -/
def parentheticalFirstCatalog : FilingSummary :=
  ⟨[⟨"R3.htm", "Consolidated Balance Sheets (Parenthetical)"⟩,
    ⟨"R2.htm", "Consolidated Balance Sheets"⟩,
    ⟨"R4.htm", "Consolidated Statements of Income (Parenthetical)"⟩]⟩

/-- A metadata block whose details table lacks the Period Type row (row 4). -/
def truncatedBlock : List MetaDiv :=
  [⟨some "Amount of currency on hand.", []⟩, ⟨some "Reference 1", []⟩,
   ⟨none, [["Name:", "us-gaap_Cash"], ["Namespace Prefix:", "us-gaap_"],
           ["Data Type:", "xbrli:monetaryItemType"], ["Balance Type:", "debit"]]⟩]

/-- Two data rows; the block of `Cash` is truncated, the block of `Inventory`
is complete. -/
def missingMetadataBody : List Tr :=
  [⟨[], [labelTd "Cash" "Cash", valueTd "100"]⟩,
   ⟨[], [labelTd "Inventory" "Inventory", valueTd "40"]⟩]

def missingMetadataDoc : Document :=
  { table := some (⟨["Balance Sheet", "Dec. 31, 2020"], []⟩ :: missingMetadataBody),
    body := fun t => if t = "Cash" then some truncatedBlock else some sampleBlock }

def missingMetadataDurationDoc : Document :=
  { table := some (durationHeader :: ⟨["Dec. 31, 2020"], []⟩ :: missingMetadataBody),
    body := fun t => if t = "Cash" then some truncatedBlock else some sampleBlock }

/-- The number of entries of column `j` of `values` (0 when there is no such
column). -/
def colLen (values : List (List String)) (j : Nat) : Nat := (values.getD j []).length

/-- Two data rows under two date columns; the first row has a single value
cell. -/
def shortRowBody : List Tr :=
  [⟨[], [labelTd "Cash" "Cash", valueTd "100"]⟩,
   ⟨[], [labelTd "Inventory" "Inventory", valueTd "40", valueTd "35"]⟩]

/-- Two data rows under two date columns; the first row has three value
cells. -/
def longRowBody : List Tr :=
  [⟨[], [labelTd "Cash" "Cash", valueTd "100", valueTd "90", valueTd "80"]⟩,
   ⟨[], [labelTd "Inventory" "Inventory", valueTd "40", valueTd "35"]⟩]

/-- A balance-sheet page with two date columns over the given body; every tag
has a complete metadata block. -/
def twoDateDoc (body : List Tr) : Document :=
  { table := some (scenarioHeader :: body), body := fun _ => some sampleBlock }

/-- A duration-style page with two date columns over the given body. -/
def twoDateDurationDoc (body : List Tr) : Document :=
  { table := some (durationHeader :: datesHeader :: body), body := fun _ => some sampleBlock }

/-- A page whose table has a single row without header cells. -/
def headerlessDoc : Document :=
  { table := some [⟨[], [labelTd "Cash" "Cash", valueTd "100"]⟩],
    body := fun _ => some sampleBlock }

/-- A duration-style page whose first row has a single header cell. -/
def shortHeaderDoc : Document :=
  { table := some [⟨["Statements of Income"], []⟩, ⟨["Dec. 31, 2020"], []⟩,
                   ⟨[], [labelTd "Cash" "Cash", valueTd "100"]⟩],
    body := fun _ => some sampleBlock }

/-- A page whose table has no row. -/
def emptyTableDoc : Document :=
  { table := some [], body := fun _ => none }

/-- An Abstract marker, then a marker whose identifier holds both "Axis" and
"Abstract", then one data row. -/
def bothMarkersBody : List Tr :=
  [⟨[], [labelTd "Assets [Abstract]" "AssetsAbstract"]⟩,
   ⟨[], [labelTd "Legal Entity [Axis]" "LegalEntityAxisAbstract"]⟩,
   ⟨[], [labelTd "Cash" "Cash", valueTd "100"]⟩]

def bothMarkersDoc : Document :=
  { table := some (⟨["Balance Sheet", "Dec. 31, 2020"], []⟩ :: bothMarkersBody),
    body := fun _ => some sampleBlock }

def bothMarkersDurationDoc : Document :=
  { table := some (durationHeader :: ⟨["Dec. 31, 2020"], []⟩ :: bothMarkersBody),
    body := fun _ => some sampleBlock }

/-- A table body with no defect other than its cell counts: every row
carries a concept identifier and every data row's tag has a complete metadata
block. -/
def identifiedBody (doc : Document) (body : List Tr) : Bool :=
  body.all fun row => hasId row && (!isDataRow row || completeMetadata doc (rowId row))

/-! ## Lemmas -/

theorem foldlM_range_append {ε β : Type} (f : List β → Nat → Except ε (List β))
    (G : Nat → List β) (n : Nat)
    (h : ∀ acc i, i < n → f acc i = .ok (acc ++ G i)) (acc : List β) :
    (List.range n).foldlM f acc = .ok (acc ++ (List.range n).flatMap G) := by
  induction n with
  | zero => simp [pure, Except.pure]
  | succ k ih =>
    have ih1 := ih (fun acc i hi => h acc i (Nat.lt_succ_of_lt hi))
    rw [List.range_succ, List.foldlM_append, ih1]
    show List.foldlM f (acc ++ (List.range k).flatMap G) [k] = _
    rw [List.foldlM_cons, h _ k (Nat.lt_succ_self k)]
    simp [List.flatMap_append, pure, Except.pure, bind, Except.bind]

theorem cellLoop_true (vs : List Td) :
    ∀ (k : Nat) (done todo : List (List String)) (items : List String),
      done.length = k → todo.length = vs.length →
      cellLoop (k + 1) vs items (done ++ todo) true
        = .ok (items, done ++ List.zipWith (fun col v => col ++ [v]) todo (vs.map Td.text)) := by
  induction vs with
  | nil =>
    intro k done todo items _ ht
    have : todo = [] := List.length_eq_zero.mp ht
    subst this
    simp [cellLoop]
  | cons v vs ih =>
    intro k done todo items hd ht
    cases todo with
    | nil => simp at ht
    | cons c todo =>
      have hlen : todo.length = vs.length := by simpa using ht
      have hget : (done ++ c :: todo)[k]? = some c := by
        rw [List.getElem?_append_right (by omega)]; simp [hd]
      have hset : (done ++ c :: todo).set k (c ++ [v.text]) = (done ++ [c ++ [v.text]]) ++ todo := by
        rw [List.set_append_right _ _ (by omega)]; simp [hd]
      simp only [cellLoop, Bool.not_true, Bool.false_eq_true, if_false, Nat.add_sub_cancel, hget, hset]
      rw [ih (k + 1) (done ++ [c ++ [v.text]]) todo items (by simp [hd]) hlen]
      simp

theorem cols_length (n : Nat) (vss : List (List String)) : (cols n vss).length = n := by
  simp [cols]

theorem cols_snoc (n : Nat) (vss : List (List String)) (vs : List String) (h : vs.length = n) :
    List.zipWith (fun col v => col ++ [v]) (cols n vss) vs = cols n (vss ++ [vs]) := by
  apply List.ext_getElem
  · simp [cols, h]
  · intro i h1 h2
    have hi : i < n := by simpa [cols] using h2
    simp [cols, List.getD_eq_getElem?_getD, List.getElem?_eq_getElem (h ▸ hi)]

theorem cellLoop_row (n : Nat) (row : Tr) (items : List String) (vss : List (List String))
    (h : row.tds.length = n + 1) :
    cellLoop 0 row.tds items (cols n vss) false
      = .ok (items ++ [(labelCell row).getD ""], cols n (vss ++ [valueCells row])) := by
  cases hr : row.tds with
  | nil => simp [hr] at h
  | cons lbl vs =>
    have hvs : vs.length = n := by simpa [hr] using h
    have := cellLoop_true vs 0 [] (cols n vss) (items ++ [lbl.text]) rfl (by simp [cols_length, hvs])
    simp only [List.nil_append, Nat.zero_add] at this
    simp only [cellLoop, Bool.not_false, if_true, Nat.zero_add, this]
    rw [cols_snoc n vss _ (by simp [hvs])]
    simp [labelCell, valueCells, hr]

theorem hasId_elim {row : Tr} (h : hasId row = true) :
    ∃ v, rowOnclick row = .ok v ∧ rowId row = xbrlTagOf v := by
  unfold hasId at h
  unfold rowId
  cases hv : rowOnclick row with
  | error e => simp [hv] at h
  | ok v => exact ⟨v, rfl, rfl⟩

theorem bodyLoop_ok (doc : Document) (n : Nat) :
    ∀ (body : List Tr) (st : ParseState) (ds : List Carried),
      wellFormedBody doc n body = true → Repr n st ds →
      ∃ st1, bodyLoop body st = .ok st1 ∧
        Repr n st1 (ds ++ scan st.axis st.abstract body) ∧ Frame st st1 := by
  intro body
  induction body with
  | nil =>
    intro st ds _ hr
    exact ⟨st, rfl, by simpa [scan] using hr, by simp [Frame]⟩
  | cons r rs ih =>
    intro st ds hwf hr
    have hwf1 : hasId r = true ∧ (isDataRow r = true →
        r.tds.length = n + 1 ∧ completeMetadata doc (rowId r) = true) ∧
        wellFormedBody doc n rs = true := by
      simp only [wellFormedBody, List.all_cons, Bool.and_eq_true, Bool.or_eq_true,
        Bool.not_eq_true', beq_iff_eq] at hwf
      refine ⟨hwf.1.1, ?_, ?_⟩
      · intro hd
        rcases hwf.1.2 with h | h
        · rw [hd] at h; exact absurd h (by simp)
        · exact h
      · simpa [wellFormedBody] using hwf.2
    obtain ⟨hid, hdata, hrest⟩ := hwf1
    obtain ⟨v, hv, hrid⟩ := hasId_elim hid
    by_cases hax : strContains (xbrlTagOf v) "Axis" = true
    · obtain ⟨st1, h1, h2, h3⟩ := ih { st with axis := xbrlTagOf v } ds hrest hr
      refine ⟨st1, ?_, ?_, h3⟩
      · simp [bodyLoop, bodyRow, hv, hax, h1]
      · simpa [scan, hrid, hax] using h2
    · by_cases hab : strContains (xbrlTagOf v) "Abstract" = true
      · obtain ⟨st1, h1, h2, h3⟩ := ih { st with abstract := xbrlTagOf v } ds hrest hr
        refine ⟨st1, ?_, ?_, h3⟩
        · simp [bodyLoop, bodyRow, hv, hax, hab, h1]
        · simpa [scan, hrid, hax, hab] using h2
      · have hd : isDataRow r = true := by simp [isDataRow, isDataId, hrid, hax, hab]
        obtain ⟨hlen, _⟩ := hdata hd
        obtain ⟨hi, hvals, haxes, habs, htags⟩ := hr
        have hcell := cellLoop_row n r st.items (ds.map fun d => valueCells d.row) hlen
        rw [← hvals] at hcell
        let st2 : ParseState :=
          { st with items := st.items ++ [(labelCell r).getD ""],
                    values := cols n ((ds.map fun d => valueCells d.row) ++ [valueCells r]),
                    axes := st.axes ++ [st.axis],
                    abstracts := st.abstracts ++ [st.abstract],
                    tags := st.tags ++ [xbrlTagOf v] }
        have hr2 : Repr n st2 (ds ++ [⟨r, st.axis, st.abstract⟩]) := by
          refine ⟨?_, ?_, ?_, ?_, ?_⟩ <;> simp [st2, hi, haxes, habs, htags, hrid]
        obtain ⟨st1, h1, h2, h3⟩ := ih st2 (ds ++ [⟨r, st.axis, st.abstract⟩]) hrest hr2
        refine ⟨st1, ?_, ?_, h3⟩
        · simp [bodyLoop, bodyRow, hv, hax, hab, hcell]
          exact h1
        · simpa [scan, hrid, hax, hab, st2] using h2

theorem bodyRow_flags {st st1 : ParseState} {row : Tr} (h : bodyRow st row = .ok st1) :
    st1.columnHeadersFound = st.columnHeadersFound ∧ st1.datesFound = st.datesFound := by
  unfold bodyRow at h
  cases hv : rowOnclick row with
  | error e => simp [hv] at h
  | ok v =>
    by_cases hax : strContains (xbrlTagOf v) "Axis" = true
    · simp [hv, hax] at h
      subst h; exact ⟨rfl, rfl⟩
    · by_cases hab : strContains (xbrlTagOf v) "Abstract" = true
      · simp [hv, hax, hab] at h
        subst h; exact ⟨rfl, rfl⟩
      · cases hc : cellLoop 0 row.tds st.items st.values false with
        | error e => simp [hv, hax, hab, hc] at h
        | ok p =>
          simp [hv, hax, hab, hc] at h
          subst h; exact ⟨rfl, rfl⟩

theorem balanceSheetRowLoop_eq_bodyLoop :
    ∀ (rows : List Tr) (st : ParseState), st.columnHeadersFound = true →
      balanceSheetRowLoop rows st = bodyLoop rows st := by
  intro rows
  induction rows with
  | nil => intro st _; rfl
  | cons r rs ih =>
    intro st h
    simp only [balanceSheetRowLoop, bodyLoop, h, Bool.not_true, Bool.false_eq_true, if_false]
    cases hb : bodyRow st r with
    | error e => rfl
    | ok st1 => exact ih st1 ((bodyRow_flags hb).1.trans h)

theorem incomeOrCashFlowRowLoop_eq_bodyLoop :
    ∀ (rows : List Tr) (st : ParseState), st.columnHeadersFound = true →
      st.datesFound = true → incomeOrCashFlowRowLoop rows st = bodyLoop rows st := by
  intro rows
  induction rows with
  | nil => intro st _ _; rfl
  | cons r rs ih =>
    intro st h h2
    simp only [incomeOrCashFlowRowLoop, bodyLoop, h, h2, Bool.not_true, Bool.false_eq_true,
      if_false]
    cases hb : bodyRow st r with
    | error e => rfl
    | ok st1 => exact ih st1 ((bodyRow_flags hb).1.trans h) ((bodyRow_flags hb).2.trans h2)

theorem idx_ok {α : Type} (xs : List α) (i : Nat) (d : α) (h : i < xs.length) :
    idx xs i = .ok (xs.getD i d) := by
  simp [idx, List.getD_eq_getElem?_getD, List.getElem?_eq_getElem h]

theorem completeBlock_elim {divs : List MetaDiv} (h : completeBlock divs = true) :
    ∃ a b c d, definitionText divs = .ok a ∧ detailText divs 2 = .ok b ∧
      detailText divs 3 = .ok c ∧ detailText divs 4 = .ok d := by
  match divs, h with
  | d0 :: d1 :: d2 :: rest, h =>
    simp only [completeBlock, List.all_cons, List.all_nil, Bool.and_true, Bool.and_eq_true] at h
    obtain ⟨hp, h2, h3, h4⟩ := h
    have key : ∀ k, (match d2.trs[k]? with
        | some tr => decide (2 ≤ tr.length)
        | none => false) = true → ∃ t, detailText (d0 :: d1 :: d2 :: rest) k = .ok t := by
      intro k hk
      cases hk1 : d2.trs[k]? with
      | none => simp [hk1] at hk
      | some tr =>
        simp only [hk1, decide_eq_true_eq] at hk
        have : ∃ t, tr[1]? = some t := ⟨tr[1], List.getElem?_eq_getElem (by omega)⟩
        obtain ⟨t, ht⟩ := this
        exact ⟨t, by simp [detailText, idx, hk1, ht]⟩
    obtain ⟨b, hb⟩ := key 2 h2
    obtain ⟨c, hc⟩ := key 3 h3
    obtain ⟨d, hd⟩ := key 4 h4
    cases hp1 : d0.p with
    | none => simp [hp1] at hp
    | some a => exact ⟨a, b, c, d, by simp [definitionText, hp1], hb, hc, hd⟩

theorem metadataLoop_ok (doc : Document) :
    ∀ (tags : List String) (m : MetaCols), (∀ t ∈ tags, completeMetadata doc t = true) →
      metadataLoop doc tags m = .ok
        { definitions := m.definitions ++ tags.map (definitionOf doc),
          dataTypes := m.dataTypes ++ tags.map (detailOf doc 2),
          balanceTypes := m.balanceTypes ++ tags.map (detailOf doc 3),
          periodTypes := m.periodTypes ++ tags.map (detailOf doc 4) } := by
  intro tags
  induction tags with
  | nil => intro m _; simp [metadataLoop]
  | cons t ts ih =>
    intro m h
    have ht := h t (List.mem_cons_self _ _)
    unfold completeMetadata at ht
    cases hb : doc.body t with
    | none => simp [hb] at ht
    | some divs =>
      rw [hb] at ht
      obtain ⟨a, b, c, d, ha, hb2, hc, hd⟩ := completeBlock_elim ht
      simp only [metadataLoop, hb, ha, hb2, hc, hd]
      rw [ih _ (fun t1 h1 => h t1 (List.mem_cons_of_mem _ h1))]
      simp [definitionOf, detailOf, hb, ha, hb2, hc, hd]

theorem foldlM_range_map {ε α β : Type} (f : List β → Nat → Except ε (List β)) (g : α → β) :
    ∀ (ds : List α), (∀ acc i (hi : i < ds.length), f acc i = .ok (acc ++ [g ds[i]])) →
      ∀ acc, (List.range ds.length).foldlM f acc = .ok (acc ++ ds.map g) := by
  intro ds
  induction ds using List.reverseRecOn with
  | nil => intro _ acc; simp [pure, Except.pure]
  | append_singleton ds d ih =>
    intro h acc
    have h1 : ∀ acc i (hi : i < ds.length), f acc i = .ok (acc ++ [g ds[i]]) := by
      intro acc i hi
      have := h acc i (by simp; omega)
      rwa [List.getElem_append_left hi] at this
    have h2 := h (acc ++ ds.map g) ds.length (by simp)
    rw [List.getElem_append_right (Nat.le_refl _)] at h2
    simp only [Nat.sub_self, List.getElem_cons_zero] at h2
    rw [List.length_append, List.length_singleton, List.range_succ, List.foldlM_append, ih h1]
    show List.foldlM f (acc ++ List.map g ds) [ds.length] = _
    rw [List.foldlM_cons, h2]
    simp [pure, Except.pure, bind, Except.bind]

theorem idx_map {α β : Type} (f : α → β) (ds : List α) (i : Nat) (hi : i < ds.length) :
    idx (ds.map f) i = .ok (f ds[i]) := by
  simp [idx, List.getElem?_eq_getElem hi]

theorem idx_cols (n : Nat) (vss : List (List String)) (ii : Nat) (h : ii < n) :
    idx (cols n vss) ii = .ok (vss.map fun vs => vs.getD ii "") := by
  simp [idx, cols, List.getElem?_range h, h]

theorem balanceSheetEmit_ok (doc : Document) (year qtr cik : String) (n : Nat)
    (st : ParseState) (ds : List Carried) (hr : Repr n st ds) (m : MetaCols)
    (hm : m = { definitions := ds.map fun d => definitionOf doc (rowId d.row),
                dataTypes := ds.map fun d => detailOf doc 2 (rowId d.row),
                balanceTypes := ds.map fun d => detailOf doc 3 (rowId d.row),
                periodTypes := ds.map fun d => detailOf doc 4 (rowId d.row) })
    (ii : Nat) (hii : ii < st.dates.length) (hn : ii < n)
    (acc : List BalanceSheetItem) (i : Nat) (hi : i < ds.length) :
    balanceSheetEmit year qtr cik st m ii acc i
      = .ok (acc ++ [balanceSheetRecord doc year qtr cik st.title (st.dates.getD ii "") ii ds[i]]) := by
  obtain ⟨h1, h2, h3, h4, h5⟩ := hr
  subst hm
  simp only [balanceSheetEmit, h1, h2, h3, h4, h5, idx_ok st.dates ii "" hii, idx_map _ _ i hi,
    idx_cols n _ ii hn, idx_map _ _ i (by simpa using hi : i < (ds.map fun d => valueCells d.row).length),
    bind, Except.bind, pure, Except.pure, balanceSheetRecord, List.getElem_map]

theorem scan_rows : ∀ (body : List Tr) (a b : String),
    (scan a b body).map Carried.row = body.filter isDataRow := by
  intro body
  induction body with
  | nil => intro a b; rfl
  | cons r rs ih =>
    intro a b
    by_cases hax : strContains (rowId r) "Axis" = true
    · simp [scan, hax, ih, isDataRow, isDataId]
    · by_cases hab : strContains (rowId r) "Abstract" = true
      · simp [scan, hax, hab, ih, isDataRow, isDataId]
      · simp [scan, hax, hab, ih, isDataRow, isDataId]

theorem scan_length (body : List Tr) (a b : String) :
    (scan a b body).length = (body.filter isDataRow).length := by
  rw [← scan_rows body a b, List.length_map]

theorem wellFormedBody_mem {doc : Document} {n : Nat} {body : List Tr}
    (hwf : wellFormedBody doc n body = true) {a b : String} {d : Carried}
    (hd : d ∈ scan a b body) :
    d.row.tds.length = n + 1 ∧ completeMetadata doc (rowId d.row) = true := by
  have hmem : d.row ∈ body.filter isDataRow := by
    rw [← scan_rows body a b]; exact List.mem_map_of_mem _ hd
  obtain ⟨h1, h2⟩ := List.mem_filter.mp hmem
  simp only [wellFormedBody, List.all_eq_true, Bool.and_eq_true, Bool.or_eq_true,
    Bool.not_eq_true', beq_iff_eq] at hwf
  rcases (hwf _ h1).2 with h | h
  · rw [h2] at h; exact absurd h (by simp)
  · exact h

theorem cols_nil (n : Nat) : cols n [] = List.replicate n [] := by
  apply List.ext_getElem <;> simp [cols]

theorem balanceSheetAssemble_ok (doc : Document) (year qtr cik : String)
    (st : ParseState) (ds : List Carried) (hr : Repr st.dates.length st ds) (m : MetaCols)
    (hm : m = { definitions := ds.map fun d => definitionOf doc (rowId d.row),
                dataTypes := ds.map fun d => detailOf doc 2 (rowId d.row),
                balanceTypes := ds.map fun d => detailOf doc 3 (rowId d.row),
                periodTypes := ds.map fun d => detailOf doc 4 (rowId d.row) }) :
    (List.range st.dates.length).foldlM
      (fun acc ii =>
        (List.range st.items.length).foldlM (balanceSheetEmit year qtr cik st m ii) acc) []
      = .ok ((List.range st.dates.length).flatMap fun ii =>
          ds.map (balanceSheetRecord doc year qtr cik st.title (st.dates.getD ii "") ii)) := by
  have hlen : st.items.length = ds.length := by rw [hr.1, List.length_map]
  rw [foldlM_range_append _
    (fun ii => ds.map (balanceSheetRecord doc year qtr cik st.title (st.dates.getD ii "") ii))]
  · simp
  · intro acc ii hii
    rw [hlen]
    exact foldlM_range_map _ _ ds
      (fun acc i hi => balanceSheetEmit_ok doc year qtr cik _ st ds hr m hm ii hii hii acc i hi) acc

theorem parseBalanceSheet_closed (doc : Document) (hdr : Tr) (body : List Tr)
    (title : String) (dates : List String) (year qtr cik : String)
    (htable : doc.table = some (hdr :: body)) (hhdr : hdr.ths = title :: dates)
    (hwf : wellFormedBody doc dates.length body = true) :
    ParseBalanceSheet doc year qtr cik
      = .ok ((List.range dates.length).flatMap fun ii =>
          (scan "" "" body).map (balanceSheetRecord doc year qtr cik title (dates.getD ii "") ii)) := by
  let st0 : ParseState :=
    { columnHeaders := title :: dates, columnHeadersFound := true, title := title,
      dates := dates, values := List.replicate dates.length [] }
  have hr0 : Repr dates.length st0 [] := by
    refine ⟨rfl, ?_, rfl, rfl, rfl⟩
    simp [st0, cols_nil]
  obtain ⟨st1, h1, hr1, hf1⟩ := bodyLoop_ok doc dates.length body st0 [] hwf hr0
  have hloop : balanceSheetRowLoop (hdr :: body) {} = .ok st1 := by
    simp only [balanceSheetRowLoop, Bool.not_false, if_true, List.nil_append, hhdr, idx,
      List.getElem?_cons_zero, List.drop_succ_cons, List.drop_zero]
    rw [balanceSheetRowLoop_eq_bodyLoop _ _ rfl]
    exact h1
  simp only [List.nil_append] at hr1
  have hdates : st1.dates = dates := hf1.2.2.2.2.2
  have htitle : st1.title = title := hf1.2.2.2.1
  have hmeta := metadataLoop_ok doc st1.tags {} (by
    intro t ht
    rw [hr1.2.2.2.2] at ht
    obtain ⟨d, hd, rfl⟩ := List.mem_map.mp ht
    exact (wellFormedBody_mem hwf hd).2)
  simp only [ParseBalanceSheet, htable, hloop, hmeta]
  rw [← hdates] at hr1
  rw [balanceSheetAssemble_ok doc year qtr cik st1 _ hr1 _ (by simp [hr1.2.2.2.2])]
  rw [hdates, htitle]

theorem incomeOrCashFlowEmit_ok (doc : Document) (year qtr cik : String) (n : Nat)
    (st : ParseState) (ds : List Carried) (hr : Repr n st ds) (m : MetaCols)
    (hm : m = { definitions := ds.map fun d => definitionOf doc (rowId d.row),
                dataTypes := ds.map fun d => detailOf doc 2 (rowId d.row),
                balanceTypes := ds.map fun d => detailOf doc 3 (rowId d.row),
                periodTypes := ds.map fun d => detailOf doc 4 (rowId d.row) })
    (ii : Nat) (hii : ii < st.dates.length) (hn : ii < n)
    (acc : List IncomeOrCashFlowStatementItem) (i : Nat) (hi : i < ds.length) :
    incomeOrCashFlowEmit year qtr cik st m ii acc i
      = .ok (acc ++ [incomeOrCashFlowRecord doc year qtr cik st.title st.duration
          (st.dates.getD ii "") ii ds[i]]) := by
  obtain ⟨h1, h2, h3, h4, h5⟩ := hr
  subst hm
  simp only [incomeOrCashFlowEmit, h1, h2, h3, h4, h5, idx_ok st.dates ii "" hii,
    idx_map _ _ i hi, idx_cols n _ ii hn,
    idx_map _ _ i (by simpa using hi : i < (ds.map fun d => valueCells d.row).length),
    bind, Except.bind, pure, Except.pure, incomeOrCashFlowRecord, List.getElem_map]

theorem incomeOrCashFlowAssemble_ok (doc : Document) (year qtr cik : String)
    (st : ParseState) (ds : List Carried) (hr : Repr st.dates.length st ds) (m : MetaCols)
    (hm : m = { definitions := ds.map fun d => definitionOf doc (rowId d.row),
                dataTypes := ds.map fun d => detailOf doc 2 (rowId d.row),
                balanceTypes := ds.map fun d => detailOf doc 3 (rowId d.row),
                periodTypes := ds.map fun d => detailOf doc 4 (rowId d.row) }) :
    (List.range st.dates.length).foldlM
      (fun acc ii =>
        (List.range st.items.length).foldlM (incomeOrCashFlowEmit year qtr cik st m ii) acc) []
      = .ok ((List.range st.dates.length).flatMap fun ii =>
          ds.map (incomeOrCashFlowRecord doc year qtr cik st.title st.duration
            (st.dates.getD ii "") ii)) := by
  have hlen : st.items.length = ds.length := by rw [hr.1, List.length_map]
  rw [foldlM_range_append _
    (fun ii => ds.map (incomeOrCashFlowRecord doc year qtr cik st.title st.duration
      (st.dates.getD ii "") ii))]
  · simp
  · intro acc ii hii
    rw [hlen]
    exact foldlM_range_map _ _ ds
      (fun acc i hi =>
        incomeOrCashFlowEmit_ok doc year qtr cik _ st ds hr m hm ii hii hii acc i hi) acc

theorem parseIncomeOrCashFlowStatement_closed (doc : Document) (hdr1 hdr2 : Tr)
    (body : List Tr) (title duration : String) (more dates : List String)
    (year qtr cik : String)
    (htable : doc.table = some (hdr1 :: hdr2 :: body))
    (hhdr1 : hdr1.ths = title :: duration :: more) (hhdr2 : hdr2.ths = dates)
    (hwf : wellFormedBody doc dates.length body = true) :
    ParseIncomeOrCashFlowStatement doc year qtr cik
      = .ok ((List.range dates.length).flatMap fun ii =>
          (scan "" "" body).map
            (incomeOrCashFlowRecord doc year qtr cik title duration (dates.getD ii "") ii)) := by
  let st0 : ParseState :=
    { columnHeaders := title :: duration :: more, columnHeadersFound := true, title := title,
      duration := duration, datesFound := true,
      dates := dates, values := List.replicate dates.length [] }
  have hr0 : Repr dates.length st0 [] := by
    refine ⟨rfl, ?_, rfl, rfl, rfl⟩
    simp [st0, cols_nil]
  obtain ⟨st1, h1, hr1, hf1⟩ := bodyLoop_ok doc dates.length body st0 [] hwf hr0
  have hloop : incomeOrCashFlowRowLoop (hdr1 :: hdr2 :: body) {} = .ok st1 := by
    simp only [incomeOrCashFlowRowLoop, Bool.not_false, if_true, List.nil_append, hhdr1, hhdr2,
      idx, List.getElem?_cons_zero, List.getElem?_cons_succ, Bool.not_true, Bool.false_eq_true,
      if_false]
    rw [incomeOrCashFlowRowLoop_eq_bodyLoop _ _ rfl rfl]
    exact h1
  simp only [List.nil_append] at hr1
  have hdates : st1.dates = dates := hf1.2.2.2.2.2
  have htitle : st1.title = title := hf1.2.2.2.1
  have hduration : st1.duration = duration := hf1.2.2.2.2.1
  have hmeta := metadataLoop_ok doc st1.tags {} (by
    intro t ht
    rw [hr1.2.2.2.2] at ht
    obtain ⟨d, hd, rfl⟩ := List.mem_map.mp ht
    exact (wellFormedBody_mem hwf hd).2)
  simp only [ParseIncomeOrCashFlowStatement, htable, hloop, hmeta]
  rw [← hdates] at hr1
  rw [incomeOrCashFlowAssemble_ok doc year qtr cik st1 _ hr1 _ (by simp [hr1.2.2.2.2])]
  rw [hdates, htitle, hduration]

/-! ## The claims -/

theorem length_flatMap_blocks {β : Type} (B : Nat → List β) (m n : Nat)
    (hB : ∀ a, (B a).length = m) : ((List.range n).flatMap B).length = n * m := by
  induction n with
  | zero => simp
  | succ k ih =>
    rw [List.range_succ, List.flatMap_append, List.length_append, ih]
    simp [Nat.succ_mul, hB]

theorem getElem?_flatMap_blocks {β : Type} (B : Nat → List β) (m n ii i : Nat)
    (hB : ∀ a, (B a).length = m) (hii : ii < n) (hi : i < m) :
    ((List.range n).flatMap B)[ii * m + i]? = (B ii)[i]? := by
  induction n with
  | zero => omega
  | succ k ih =>
    rw [List.range_succ, List.flatMap_append]
    by_cases hk : ii < k
    · have hlt : ii * m + i < ((List.range k).flatMap B).length := by
        rw [length_flatMap_blocks B m k hB]
        calc ii * m + i < ii * m + m := by omega
          _ = (ii + 1) * m := by rw [Nat.succ_mul]
          _ ≤ k * m := Nat.mul_le_mul_right m hk
      rw [List.getElem?_append_left hlt]
      exact ih hk
    · have hk2 : ii = k := by omega
      subst hk2
      have hge : ((List.range ii).flatMap B).length ≤ ii * m + i := by
        rw [length_flatMap_blocks B m ii hB]; omega
      rw [List.getElem?_append_right hge, length_flatMap_blocks B m ii hB]
      simp

theorem mem_scan_row {body : List Tr} {a b : String} {d : Carried} (hd : d ∈ scan a b body) :
    d.row ∈ body ∧ isDataRow d.row = true := by
  have hmem : d.row ∈ body.filter isDataRow := by
    rw [← scan_rows body a b]; exact List.mem_map_of_mem _ hd
  exact List.mem_filter.mp hmem

/-- C1: on a well-formed table with `n` date columns and `m` data rows, both
parsers return normally with exactly `m * n` records, and every record carries
the tag of a data row of the body (marker rows contribute none). -/
theorem C1_record_count (doc : Document) (year qtr cik title : String) (dates : List String)
    (body : List Tr) (hwf : wellFormedBody doc dates.length body = true) :
    (∀ hdr : Tr, doc.table = some (hdr :: body) → hdr.ths = title :: dates →
      ∃ recs, ParseBalanceSheet doc year qtr cik = .ok recs ∧
        recs.length = (body.filter isDataRow).length * dates.length ∧
        ∀ r ∈ recs, ∃ row ∈ body, isDataRow row = true ∧ r.Tag = rowId row) ∧
    (∀ (hdr1 hdr2 : Tr) (duration : String) (more : List String),
      doc.table = some (hdr1 :: hdr2 :: body) → hdr1.ths = title :: duration :: more →
      hdr2.ths = dates →
      ∃ recs, ParseIncomeOrCashFlowStatement doc year qtr cik = .ok recs ∧
        recs.length = (body.filter isDataRow).length * dates.length ∧
        ∀ r ∈ recs, ∃ row ∈ body, isDataRow row = true ∧ r.Tag = rowId row) := by
  constructor
  · intro hdr htable hhdr
    refine ⟨_, parseBalanceSheet_closed doc hdr body title dates year qtr cik htable hhdr hwf,
      ?_, ?_⟩
    · rw [length_flatMap_blocks _ (scan "" "" body).length _ (by intro a; simp), scan_length,
        Nat.mul_comm]
    · intro r hr
      obtain ⟨ii, _, hr1⟩ := List.mem_flatMap.mp hr
      obtain ⟨d, hd, rfl⟩ := List.mem_map.mp hr1
      exact ⟨d.row, (mem_scan_row hd).1, (mem_scan_row hd).2, rfl⟩
  · intro hdr1 hdr2 duration more htable hhdr1 hhdr2
    refine ⟨_, parseIncomeOrCashFlowStatement_closed doc hdr1 hdr2 body title duration more dates
      year qtr cik htable hhdr1 hhdr2 hwf, ?_, ?_⟩
    · rw [length_flatMap_blocks _ (scan "" "" body).length _ (by intro a; simp), scan_length,
        Nat.mul_comm]
    · intro r hr
      obtain ⟨ii, _, hr1⟩ := List.mem_flatMap.mp hr
      obtain ⟨d, hd, rfl⟩ := List.mem_map.mp hr1
      exact ⟨d.row, (mem_scan_row hd).1, (mem_scan_row hd).2, rfl⟩

/-- Witness of C1 on the end-to-end scenario: one data row, two date columns,
two records. -/
theorem C1_record_count_witness :
    wellFormedBody scenarioDoc 2 scenarioBody = true ∧
    (∃ recs, ParseBalanceSheet scenarioDoc "2020" "4" "320193" = .ok recs ∧
      recs.length = (scenarioBody.filter isDataRow).length * 2 ∧
      ∀ r ∈ recs, ∃ row ∈ scenarioBody, isDataRow row = true ∧ r.Tag = rowId row) ∧
    (∃ recs, ParseIncomeOrCashFlowStatement durationDoc "2020" "4" "320193" = .ok recs ∧
      recs.length = (scenarioBody.filter isDataRow).length * 2 ∧
      ∀ r ∈ recs, ∃ row ∈ scenarioBody, isDataRow row = true ∧ r.Tag = rowId row) :=
  ⟨by decide,
   (C1_record_count scenarioDoc "2020" "4" "320193" "Total Assets"
      ["Dec. 31, 2020", "Dec. 31, 2019"] scenarioBody (by decide)).1 scenarioHeader rfl rfl,
   (C1_record_count durationDoc "2020" "4" "320193" "Statements of Income"
      ["Dec. 31, 2020", "Dec. 31, 2019"] scenarioBody (by decide)).2 durationHeader datesHeader
      "12 Months Ended" [] rfl rfl rfl⟩

theorem scan_getElem? {body : List Tr} {a b : String} {i : Nat} {row : Tr}
    (h : (body.filter isDataRow)[i]? = some row) :
    ∃ d, (scan a b body)[i]? = some d ∧ d.row = row ∧ d ∈ scan a b body := by
  rw [← scan_rows body a b, List.getElem?_map] at h
  cases hd : (scan a b body)[i]? with
  | none => simp [hd] at h
  | some d =>
    simp only [hd, Option.map_some', Option.some.injEq] at h
    exact ⟨d, rfl, h, List.getElem?_mem hd⟩

theorem getElem?_getD_of_lt {α : Type} (xs : List α) (i : Nat) (d : α) (h : i < xs.length) :
    xs[i]? = some (xs.getD i d) := by
  simp [List.getD_eq_getElem?_getD, List.getElem?_eq_getElem h]

theorem labelCell_of_length {row : Tr} {n : Nat} (h : row.tds.length = n + 1) :
    labelCell row = some ((labelCell row).getD "") := by
  cases hr : row.tds with
  | nil => simp [hr] at h
  | cons lbl vs => simp [labelCell, hr]

theorem valueCells_length {row : Tr} {n : Nat} (h : row.tds.length = n + 1) :
    (valueCells row).length = n := by
  simp [valueCells, h]

/-- C2: on a well-formed table the output is in date-major, item-minor order:
for every date index `ii` and every data-row index `i`, the record at position
`ii * m + i` has the `ii`-th date, the label cell, the `ii`-th value cell and
the concept identifier of the `i`-th data row, and carries the year, quarter
and CIK arguments and the title taken from the first header cell. -/
theorem C2_date_major_order (doc : Document) (year qtr cik title : String)
    (dates : List String) (body : List Tr)
    (hwf : wellFormedBody doc dates.length body = true) :
    (∀ hdr : Tr, doc.table = some (hdr :: body) → hdr.ths = title :: dates →
      ∃ recs, ParseBalanceSheet doc year qtr cik = .ok recs ∧
        ∀ (ii i : Nat) (row : Tr), ii < dates.length →
          (body.filter isDataRow)[i]? = some row →
          ∃ r, recs[ii * (body.filter isDataRow).length + i]? = some r ∧
            dates[ii]? = some r.Date ∧ labelCell row = some r.Item ∧
            (valueCells row)[ii]? = some r.Value ∧ r.Tag = rowId row ∧
            r.Year = year ∧ r.Quarter = qtr ∧ r.CIK = cik ∧ r.Title = title) ∧
    (∀ (hdr1 hdr2 : Tr) (duration : String) (more : List String),
      doc.table = some (hdr1 :: hdr2 :: body) → hdr1.ths = title :: duration :: more →
      hdr2.ths = dates →
      ∃ recs, ParseIncomeOrCashFlowStatement doc year qtr cik = .ok recs ∧
        ∀ (ii i : Nat) (row : Tr), ii < dates.length →
          (body.filter isDataRow)[i]? = some row →
          ∃ r, recs[ii * (body.filter isDataRow).length + i]? = some r ∧
            dates[ii]? = some r.Date ∧ labelCell row = some r.Item ∧
            (valueCells row)[ii]? = some r.Value ∧ r.Tag = rowId row ∧
            r.Year = year ∧ r.Quarter = qtr ∧ r.CIK = cik ∧ r.Title = title) := by
  constructor
  · intro hdr htable hhdr
    refine ⟨_, parseBalanceSheet_closed doc hdr body title dates year qtr cik htable hhdr hwf,
      ?_⟩
    intro ii i row hii hrow
    obtain ⟨d, hd, hdrow, hmem⟩ := scan_getElem? (a := "") (b := "") hrow
    have hi : i < (scan "" "" body).length := by
      rcases List.getElem?_eq_some.mp hd with ⟨h, _⟩; exact h
    have hlen := (wellFormedBody_mem hwf hmem).1
    rw [hdrow] at hlen
    refine ⟨balanceSheetRecord doc year qtr cik title (dates.getD ii "") ii d, ?_,
      getElem?_getD_of_lt _ _ _ hii, ?_, ?_, ?_, rfl, rfl, rfl, rfl⟩
    · rw [← scan_length body "" "",
        getElem?_flatMap_blocks _ (scan "" "" body).length _ ii i (by intro a; simp) hii hi,
        List.getElem?_map, hd]
      rfl
    · simpa [balanceSheetRecord, hdrow] using labelCell_of_length hlen
    · simpa [balanceSheetRecord, hdrow] using
        getElem?_getD_of_lt (valueCells row) ii "" (by rw [valueCells_length hlen]; exact hii)
    · simp [balanceSheetRecord, hdrow]
  · intro hdr1 hdr2 duration more htable hhdr1 hhdr2
    refine ⟨_, parseIncomeOrCashFlowStatement_closed doc hdr1 hdr2 body title duration more dates
      year qtr cik htable hhdr1 hhdr2 hwf, ?_⟩
    intro ii i row hii hrow
    obtain ⟨d, hd, hdrow, hmem⟩ := scan_getElem? (a := "") (b := "") hrow
    have hi : i < (scan "" "" body).length := by
      rcases List.getElem?_eq_some.mp hd with ⟨h, _⟩; exact h
    have hlen := (wellFormedBody_mem hwf hmem).1
    rw [hdrow] at hlen
    refine ⟨incomeOrCashFlowRecord doc year qtr cik title duration (dates.getD ii "") ii d, ?_,
      getElem?_getD_of_lt _ _ _ hii, ?_, ?_, ?_, rfl, rfl, rfl, rfl⟩
    · rw [← scan_length body "" "",
        getElem?_flatMap_blocks _ (scan "" "" body).length _ ii i (by intro a; simp) hii hi,
        List.getElem?_map, hd]
      rfl
    · simpa [incomeOrCashFlowRecord, hdrow] using labelCell_of_length hlen
    · simpa [incomeOrCashFlowRecord, hdrow] using
        getElem?_getD_of_lt (valueCells row) ii "" (by rw [valueCells_length hlen]; exact hii)
    · simp [incomeOrCashFlowRecord, hdrow]

/-- Witness of C2: the end-to-end scenario. The header
`["Total Assets", "Dec. 31, 2020", "Dec. 31, 2019"]`, the marker row
`CurrentAssetsAbstract` and the data row `Cash` with values `100` and `90`
give the record (Dec. 31, 2020, Cash, 100) and then (Dec. 31, 2019, Cash, 90),
both with Abstract `CurrentAssetsAbstract`. -/
theorem C2_date_major_order_witness :
    wellFormedBody scenarioDoc 2 scenarioBody = true ∧
    (∃ recs, ParseBalanceSheet scenarioDoc "2020" "4" "320193" = .ok recs ∧
      ∀ (ii i : Nat) (row : Tr), ii < 2 → (scenarioBody.filter isDataRow)[i]? = some row →
        ∃ r, recs[ii * (scenarioBody.filter isDataRow).length + i]? = some r ∧
          ["Dec. 31, 2020", "Dec. 31, 2019"][ii]? = some r.Date ∧ labelCell row = some r.Item ∧
          (valueCells row)[ii]? = some r.Value ∧ r.Tag = rowId row ∧
          r.Year = "2020" ∧ r.Quarter = "4" ∧ r.CIK = "320193" ∧ r.Title = "Total Assets") ∧
    (ParseBalanceSheet scenarioDoc "2020" "4" "320193").map
        (List.map fun r => (r.Date, r.Item, r.Value, r.Abstract))
      = .ok [("Dec. 31, 2020", "Cash", "100", "CurrentAssetsAbstract"),
             ("Dec. 31, 2019", "Cash", "90", "CurrentAssetsAbstract")] ∧
    (ParseIncomeOrCashFlowStatement durationDoc "2020" "4" "320193").map
        (List.map fun r => (r.Date, r.Item, r.Value, r.Abstract))
      = .ok [("Dec. 31, 2020", "Cash", "100", "CurrentAssetsAbstract"),
             ("Dec. 31, 2019", "Cash", "90", "CurrentAssetsAbstract")] :=
  ⟨by decide,
   (C2_date_major_order scenarioDoc "2020" "4" "320193" "Total Assets"
      ["Dec. 31, 2020", "Dec. 31, 2019"] scenarioBody (by decide)).1 scenarioHeader rfl rfl,
   by rfl, by rfl⟩

theorem scan_append : ∀ (xs ys : List Tr) (a b : String),
    scan a b (xs ++ ys) = scan a b xs ++ scan (axisAfter a xs) (abstractAfter b xs) ys := by
  intro xs
  induction xs with
  | nil => intro ys a b; rfl
  | cons r rs ih =>
    intro ys a b
    by_cases hax : strContains (rowId r) "Axis" = true
    · simp [scan, hax, ih, axisAfter, abstractAfter]
    · by_cases hab : strContains (rowId r) "Abstract" = true
      · simp [scan, hax, hab, ih, axisAfter, abstractAfter]
      · simp [scan, hax, hab, ih, axisAfter, abstractAfter]

theorem axisAfter_eq : ∀ (xs : List Tr) (a : String),
    axisAfter a xs = ((xs.reverse.map rowId).find? isAxisId).getD a := by
  intro xs
  induction xs with
  | nil => intro a; rfl
  | cons r rs ih =>
    intro a
    have h := ih (if strContains (rowId r) "Axis" then rowId r else a)
    unfold axisAfter at h ⊢
    rw [List.foldl_cons, h, List.reverse_cons, List.map_append, List.find?_append]
    cases hf : List.find? isAxisId (List.map rowId rs.reverse) with
    | some t => simp
    | none =>
      by_cases hax : strContains (rowId r) "Axis" = true
      · simp [hax, isAxisId]
      · simp [hax, isAxisId]

theorem abstractAfter_eq : ∀ (xs : List Tr) (b : String),
    abstractAfter b xs = ((xs.reverse.map rowId).find? isAbstractId).getD b := by
  intro xs
  induction xs with
  | nil => intro b; rfl
  | cons r rs ih =>
    intro b
    have h := ih (if strContains (rowId r) "Axis" then b
      else if strContains (rowId r) "Abstract" then rowId r else b)
    unfold abstractAfter at h ⊢
    rw [List.foldl_cons, h, List.reverse_cons, List.map_append, List.find?_append]
    cases hf : List.find? isAbstractId (List.map rowId rs.reverse) with
    | some t => simp
    | none =>
      by_cases hax : strContains (rowId r) "Axis" = true
      · simp [hax, isAbstractId]
      · by_cases hab : strContains (rowId r) "Abstract" = true
        · simp [hax, hab, isAbstractId]
        · simp [hax, hab, isAbstractId]

theorem scan_at_split (pre post : List Tr) (row : Tr) (hd : isDataRow row = true) :
    (scan "" "" (pre ++ row :: post))[(pre.filter isDataRow).length]?
      = some ⟨row, lastAxis pre, lastAbstract pre⟩ := by
  have hd1 : strContains (rowId row) "Axis" = false ∧
      strContains (rowId row) "Abstract" = false := by
    simpa [isDataRow, isDataId] using hd
  rw [scan_append, ← scan_length pre "" "", List.getElem?_append_right (Nat.le_refl _)]
  simp [scan, hd1.1, hd1.2, axisAfter_eq, abstractAfter_eq, lastAxis, lastAbstract]

theorem scan_at_row {body : List Tr} {k : Nat} {row : Tr} (hk : body[k]? = some row)
    (hd : isDataRow row = true) :
    (scan "" "" body)[((body.take k).filter isDataRow).length]?
      = some ⟨row, lastAxis (body.take k), lastAbstract (body.take k)⟩ := by
  obtain ⟨hlt, hrow⟩ := List.getElem?_eq_some.mp hk
  have hsplit : body.take k ++ row :: body.drop (k + 1) = body := by
    rw [← hrow, ← List.drop_eq_getElem_cons hlt, List.take_append_drop]
  have h := scan_at_split (body.take k) (body.drop (k + 1)) row hd
  rwa [hsplit] at h

theorem bodyRow_markers {st st1 : ParseState} {row : Tr} (h : bodyRow st row = .ok st1) :
    (isAxisId (rowId row) = true → st1.axis = rowId row ∧ st1.abstract = st.abstract) ∧
    (isAbstractId (rowId row) = true → st1.abstract = rowId row ∧ st1.axis = st.axis) ∧
    (isDataRow row = true → st1.axis = st.axis ∧ st1.abstract = st.abstract) := by
  unfold bodyRow at h
  cases hv : rowOnclick row with
  | error e => simp [hv] at h
  | ok v =>
    have hid : rowId row = xbrlTagOf v := by simp [rowId, hv]
    by_cases hax : strContains (xbrlTagOf v) "Axis" = true
    · simp [hv, hax] at h
      subst h
      simp [isAxisId, isAbstractId, isDataRow, isDataId, hid, hax]
    · by_cases hab : strContains (xbrlTagOf v) "Abstract" = true
      · simp [hv, hax, hab] at h
        subst h
        simp [isAxisId, isAbstractId, isDataRow, isDataId, hid, hax, hab]
      · cases hc : cellLoop 0 row.tds st.items st.values false with
        | error e => simp [hv, hax, hab, hc] at h
        | ok p =>
          simp [hv, hax, hab, hc] at h
          subst h
          simp [isAxisId, isAbstractId, isDataRow, isDataId, hid, hax, hab]

/-- C3: Axis/Abstract carry-forward. On a well-formed table, every record of
the data row at body position `k` has as Axis the identifier of the most
recent Axis marker row before position `k` and as Abstract the identifier of
the most recent Abstract marker row before position `k` (the empty string when
there is none); and in the row loop an Axis marker leaves the current Abstract
unchanged, an Abstract marker leaves the current Axis unchanged, and a data
row changes neither. -/
theorem C3_marker_carry_forward (doc : Document) (year qtr cik title : String)
    (dates : List String) (body : List Tr)
    (hwf : wellFormedBody doc dates.length body = true) :
    (∀ hdr : Tr, doc.table = some (hdr :: body) → hdr.ths = title :: dates →
      ∃ recs, ParseBalanceSheet doc year qtr cik = .ok recs ∧
        ∀ (k ii : Nat) (row : Tr), body[k]? = some row → isDataRow row = true →
          ii < dates.length →
          ∃ r, recs[ii * (body.filter isDataRow).length
                + ((body.take k).filter isDataRow).length]? = some r ∧
            r.Tag = rowId row ∧ r.Axis = lastAxis (body.take k) ∧
            r.Abstract = lastAbstract (body.take k)) ∧
    (∀ (hdr1 hdr2 : Tr) (duration : String) (more : List String),
      doc.table = some (hdr1 :: hdr2 :: body) → hdr1.ths = title :: duration :: more →
      hdr2.ths = dates →
      ∃ recs, ParseIncomeOrCashFlowStatement doc year qtr cik = .ok recs ∧
        ∀ (k ii : Nat) (row : Tr), body[k]? = some row → isDataRow row = true →
          ii < dates.length →
          ∃ r, recs[ii * (body.filter isDataRow).length
                + ((body.take k).filter isDataRow).length]? = some r ∧
            r.Tag = rowId row ∧ r.Axis = lastAxis (body.take k) ∧
            r.Abstract = lastAbstract (body.take k)) ∧
    (∀ (st st1 : ParseState) (row : Tr), bodyRow st row = .ok st1 →
      (isAxisId (rowId row) = true → st1.axis = rowId row ∧ st1.abstract = st.abstract) ∧
      (isAbstractId (rowId row) = true → st1.abstract = rowId row ∧ st1.axis = st.axis) ∧
      (isDataRow row = true → st1.axis = st.axis ∧ st1.abstract = st.abstract)) := by
  refine ⟨?_, ?_, fun st st1 row h => bodyRow_markers h⟩
  · intro hdr htable hhdr
    refine ⟨_, parseBalanceSheet_closed doc hdr body title dates year qtr cik htable hhdr hwf,
      ?_⟩
    intro k ii row hk hd hii
    have hd1 := scan_at_row hk hd
    have hi : ((body.take k).filter isDataRow).length < (scan "" "" body).length := by
      rcases List.getElem?_eq_some.mp hd1 with ⟨h, _⟩; exact h
    refine ⟨balanceSheetRecord doc year qtr cik title (dates.getD ii "") ii
      ⟨row, lastAxis (body.take k), lastAbstract (body.take k)⟩, ?_, rfl, rfl, rfl⟩
    rw [← scan_length body "" "",
      getElem?_flatMap_blocks _ (scan "" "" body).length _ ii _ (by intro a; simp) hii hi,
      List.getElem?_map, hd1]
    rfl
  · intro hdr1 hdr2 duration more htable hhdr1 hhdr2
    refine ⟨_, parseIncomeOrCashFlowStatement_closed doc hdr1 hdr2 body title duration more dates
      year qtr cik htable hhdr1 hhdr2 hwf, ?_⟩
    intro k ii row hk hd hii
    have hd1 := scan_at_row hk hd
    have hi : ((body.take k).filter isDataRow).length < (scan "" "" body).length := by
      rcases List.getElem?_eq_some.mp hd1 with ⟨h, _⟩; exact h
    refine ⟨incomeOrCashFlowRecord doc year qtr cik title duration (dates.getD ii "") ii
      ⟨row, lastAxis (body.take k), lastAbstract (body.take k)⟩, ?_, rfl, rfl, rfl⟩
    rw [← scan_length body "" "",
      getElem?_flatMap_blocks _ (scan "" "" body).length _ ii _ (by intro a; simp) hii hi,
      List.getElem?_map, hd1]
    rfl

/-- Witness of C3: the rows [Axis A1, item, Abstract B1, item, Axis A2, item]
give Axis = [A1, A1, A2] and Abstract = ["", B1, B1]. -/
theorem C3_marker_carry_forward_witness :
    wellFormedBody carryDoc 1 carryBody = true ∧
    (∃ recs, ParseBalanceSheet carryDoc "2020" "4" "320193" = .ok recs ∧
      ∀ (k ii : Nat) (row : Tr), carryBody[k]? = some row → isDataRow row = true → ii < 1 →
        ∃ r, recs[ii * (carryBody.filter isDataRow).length
              + ((carryBody.take k).filter isDataRow).length]? = some r ∧
          r.Tag = rowId row ∧ r.Axis = lastAxis (carryBody.take k) ∧
          r.Abstract = lastAbstract (carryBody.take k)) ∧
    (ParseBalanceSheet carryDoc "2020" "4" "320193").map
        (List.map fun r => (r.Item, r.Axis, r.Abstract))
      = .ok [("Cash", "A1Axis", ""), ("Inventory", "A1Axis", "B1Abstract"),
             ("Goodwill", "A2Axis", "B1Abstract")] ∧
    (ParseIncomeOrCashFlowStatement carryDurationDoc "2020" "4" "320193").map
        (List.map fun r => (r.Item, r.Axis, r.Abstract))
      = .ok [("Cash", "A1Axis", ""), ("Inventory", "A1Axis", "B1Abstract"),
             ("Goodwill", "A2Axis", "B1Abstract")] :=
  ⟨by decide,
   (C3_marker_carry_forward carryDoc "2020" "4" "320193" "Balance Sheet" ["Dec. 31, 2020"]
      carryBody (by decide)).1 ⟨["Balance Sheet", "Dec. 31, 2020"], []⟩ rfl rfl,
   by rfl, by rfl⟩

theorem balanceSheetNameLoop_eq (lower : String → String) (url : String) (report : Report) :
    ∀ (names : List String) (slot : Bool × String),
      balanceSheetNameLoop lower url report names slot
        = if !slot.1 && (containsAny lower names report && !isParenthetical lower report)
          then (true, reportURL url report) else slot := by
  intro names
  induction names with
  | nil => intro slot; simp [balanceSheetNameLoop, containsAny]
  | cons name rest ih =>
    intro slot
    obtain ⟨found, u⟩ := slot
    simp only [balanceSheetNameLoop, ih, containsAny, isParenthetical, reportURL, List.any_cons]
    cases found <;> cases strContains (lower report.LongName) name <;>
      cases strContains (lower report.LongName) "parenthetical" <;> simp

theorem statementNameLoop_eq (lower : String → String) (url : String) (report : Report) :
    ∀ (names : List String) (slot : Bool × String),
      statementNameLoop lower url report names slot
        = if !slot.1 && containsAny lower names report
          then (true, reportURL url report) else slot := by
  intro names
  induction names with
  | nil => intro slot; simp [statementNameLoop, containsAny]
  | cons name rest ih =>
    intro slot
    obtain ⟨found, u⟩ := slot
    simp only [statementNameLoop, ih, containsAny, reportURL, List.any_cons]
    cases found <;> cases strContains (lower report.LongName) name <;> simp

theorem reportStep_eq (lower : String → String) (url : String) (st : SummaryState)
    (r : Report) :
    reportStep lower url st r =
      { balanceSheetFound :=
          (slotStep (matchesBalanceSheet lower) url (st.balanceSheetFound, st.balanceSheetURL) r).1,
        balanceSheetURL :=
          (slotStep (matchesBalanceSheet lower) url (st.balanceSheetFound, st.balanceSheetURL) r).2,
        incomeStatementFound :=
          (slotStep (matchesIncomeStatement lower) url
            (st.incomeStatementFound, st.incomeStatementURL) r).1,
        incomeStatementURL :=
          (slotStep (matchesIncomeStatement lower) url
            (st.incomeStatementFound, st.incomeStatementURL) r).2,
        cashFlowStatementFound :=
          (slotStep (matchesCashFlowStatement lower) url
            (st.cashFlowStatementFound, st.cashFlowStatementURL) r).1,
        cashFlowStatementURL :=
          (slotStep (matchesCashFlowStatement lower) url
            (st.cashFlowStatementFound, st.cashFlowStatementURL) r).2 } := by
  simp only [reportStep, balanceSheetNameLoop_eq, statementNameLoop_eq, slotStep,
    matchesBalanceSheet, matchesIncomeStatement, matchesCashFlowStatement]

theorem reportStep_fix (lower : String → String) (url : String) (st : SummaryState)
    (r : Report) (hb : st.balanceSheetFound = true) (hi : st.incomeStatementFound = true)
    (hc : st.cashFlowStatementFound = true) : reportStep lower url st r = st := by
  rw [reportStep_eq]
  cases st
  simp only at hb hi hc
  subst hb hi hc
  simp [slotStep]

theorem foldl_reportStep_fix (lower : String → String) (url : String) :
    ∀ (reports : List Report) (st : SummaryState), st.balanceSheetFound = true →
      st.incomeStatementFound = true → st.cashFlowStatementFound = true →
      reports.foldl (reportStep lower url) st = st := by
  intro reports
  induction reports with
  | nil => intro st _ _ _; rfl
  | cons r rs ih =>
    intro st hb hi hc
    rw [List.foldl_cons, reportStep_fix lower url st r hb hi hc]
    exact ih st hb hi hc

theorem reportLoop_eq_foldl (lower : String → String) (url : String) :
    ∀ (reports : List Report) (st : SummaryState),
      reportLoop lower url reports st = reports.foldl (reportStep lower url) st := by
  intro reports
  induction reports with
  | nil => intro st; rfl
  | cons r rs ih =>
    intro st
    simp only [reportLoop, List.foldl_cons]
    split
    · rename_i h
      simp only [Bool.and_eq_true] at h
      exact (foldl_reportStep_fix lower url rs _ h.1.1 h.1.2 h.2).symm
    · exact ih _

theorem foldl_slotStep (p : Report → Bool) (url : String) :
    ∀ (reports : List Report) (slot : Bool × String),
      reports.foldl (slotStep p url) slot
        = if slot.1 then slot
          else match reports.find? p with
            | some r => (true, reportURL url r)
            | none => slot := by
  intro reports
  induction reports with
  | nil => intro slot; simp
  | cons r rs ih =>
    intro slot
    obtain ⟨found, u⟩ := slot
    rw [List.foldl_cons, ih]
    cases found <;> cases hp : p r <;> simp [slotStep, hp, List.find?_cons]

theorem foldl_reportStep_slots (lower : String → String) (url : String) :
    ∀ (reports : List Report) (st : SummaryState),
      ((reports.foldl (reportStep lower url) st).balanceSheetFound,
        (reports.foldl (reportStep lower url) st).balanceSheetURL)
        = reports.foldl (slotStep (matchesBalanceSheet lower) url)
            (st.balanceSheetFound, st.balanceSheetURL) ∧
      ((reports.foldl (reportStep lower url) st).incomeStatementFound,
        (reports.foldl (reportStep lower url) st).incomeStatementURL)
        = reports.foldl (slotStep (matchesIncomeStatement lower) url)
            (st.incomeStatementFound, st.incomeStatementURL) ∧
      ((reports.foldl (reportStep lower url) st).cashFlowStatementFound,
        (reports.foldl (reportStep lower url) st).cashFlowStatementURL)
        = reports.foldl (slotStep (matchesCashFlowStatement lower) url)
            (st.cashFlowStatementFound, st.cashFlowStatementURL) := by
  intro reports
  induction reports with
  | nil => intro st; exact ⟨rfl, rfl, rfl⟩
  | cons r rs ih =>
    intro st
    simp only [List.foldl_cons]
    obtain ⟨h1, h2, h3⟩ := ih (reportStep lower url st r)
    rw [h1, h2, h3, reportStep_eq]
    exact ⟨rfl, rfl, rfl⟩

theorem parseFilingSummary_closed (lower : String → String) (fs : FilingSummary)
    (url : String) :
    ParseFilingSummary lower fs url
      = (firstURL url (matchesBalanceSheet lower) fs.MyReports,
         firstURL url (matchesIncomeStatement lower) fs.MyReports,
         firstURL url (matchesCashFlowStatement lower) fs.MyReports) := by
  obtain ⟨h1, h2, h3⟩ := foldl_reportStep_slots lower url fs.MyReports {}
  rw [foldl_slotStep] at h1 h2 h3
  have e1 := congrArg Prod.snd h1
  have e2 := congrArg Prod.snd h2
  have e3 := congrArg Prod.snd h3
  simp only [ParseFilingSummary, reportLoop_eq_foldl]
  simp only [] at e1 e2 e3
  rw [e1, e2, e3]
  simp only [firstURL]
  refine Prod.ext ?_ (Prod.ext ?_ ?_)
  · cases List.find? (matchesBalanceSheet lower) fs.MyReports <;> rfl
  · cases List.find? (matchesIncomeStatement lower) fs.MyReports <;> rfl
  · cases List.find? (matchesCashFlowStatement lower) fs.MyReports <;> rfl

theorem find?_of_first {α : Type} (p : α → Bool) :
    ∀ (l : List α) (i : Nat) (r : α), l[i]? = some r → p r = true →
      (∀ r1 ∈ l.take i, p r1 = false) → l.find? p = some r := by
  intro l
  induction l with
  | nil => intro i r h; simp at h
  | cons a l ih =>
    intro i r h hp hfirst
    cases i with
    | zero =>
      simp only [List.getElem?_cons_zero, Option.some.injEq] at h
      subst h
      simp [List.find?_cons, hp]
    | succ i =>
      have ha : p a = false := hfirst a (by simp)
      simp only [List.getElem?_cons_succ] at h
      rw [List.find?_cons, ha]
      exact ih i r h hp (fun r1 hr1 => hfirst r1 (by simp [hr1]))

theorem firstURL_of_first (url : String) (p : Report → Bool) (l : List Report) (i : Nat)
    (r : Report) (h : l[i]? = some r) (hp : p r = true)
    (hfirst : ∀ r1 ∈ l.take i, p r1 = false) :
    firstURL url p l = url ++ "/" ++ r.HtmlFileName := by
  simp [firstURL, find?_of_first p l i r h hp hfirst, reportURL]

theorem firstURL_append_of_first (url : String) (p : Report → Bool) (l later : List Report)
    (i : Nat) (r : Report) (h : l[i]? = some r) (hp : p r = true)
    (hfirst : ∀ r1 ∈ l.take i, p r1 = false) :
    firstURL url p (l ++ later) = url ++ "/" ++ r.HtmlFileName := by
  have hi : i < l.length := (List.getElem?_eq_some.mp h).1
  apply firstURL_of_first url p (l ++ later) i r _ hp
  · rw [List.take_append_of_le_length (Nat.le_of_lt hi)]
    exact hfirst
  · rw [List.getElem?_append_left hi]; exact h

theorem reportURL_ne_empty (url : String) (r : Report) : reportURL url r ≠ "" := by
  intro h
  have := congrArg String.length h
  simp only [reportURL, String.length_append] at this
  have h1 : "/".length = 1 := by decide
  rw [h1] at this
  have h2 : "".length = 0 := by decide
  omega

theorem firstURL_eq_empty_iff (url : String) (p : Report → Bool) (l : List Report) :
    firstURL url p l = "" ↔ ∀ r ∈ l, p r = false := by
  unfold firstURL
  cases hf : l.find? p with
  | none =>
    simp only [true_iff]
    intro r hr
    have := List.find?_eq_none.mp hf r hr
    simpa using this
  | some r =>
    have hp : p r = true := List.find?_some hf
    have hm : r ∈ l := List.mem_of_find?_eq_some hf
    constructor
    · intro h; exact absurd h (reportURL_ne_empty url r)
    · intro h; rw [h r hm] at hp; exact absurd hp (by simp)

theorem find?_filter_of_imp {α : Type} (p q : α → Bool) (hpq : ∀ a, p a = true → q a = true) :
    ∀ l : List α, (l.filter q).find? p = l.find? p := by
  intro l
  induction l with
  | nil => rfl
  | cons a l ih =>
    cases hq : q a with
    | true => simp [List.filter_cons, hq, List.find?_cons, ih]
    | false =>
      have hp : p a = false := by
        cases hp : p a with
        | false => rfl
        | true => rw [hpq a hp] at hq; cases hq
      simp [List.filter_cons, hq, List.find?_cons, hp, ih]

/-- C4: first-match priority. For each statement kind, if the report at catalog
index `i` matches the kind and no report before it does, the URL returned for
the kind is that report's URL; it stays so whatever reports follow; and the
early exit leaves the three results as they are without it. -/
theorem C4_first_match (lower : String → String) (fs : FilingSummary) (url : String)
    (i : Nat) (r : Report) (hr : fs.MyReports[i]? = some r) :
    (matchesBalanceSheet lower r = true →
      (∀ r1 ∈ fs.MyReports.take i, matchesBalanceSheet lower r1 = false) →
      (ParseFilingSummary lower fs url).1 = url ++ "/" ++ r.HtmlFileName ∧
      ∀ later, (ParseFilingSummary lower ⟨fs.MyReports ++ later⟩ url).1
        = url ++ "/" ++ r.HtmlFileName) ∧
    (matchesIncomeStatement lower r = true →
      (∀ r1 ∈ fs.MyReports.take i, matchesIncomeStatement lower r1 = false) →
      (ParseFilingSummary lower fs url).2.1 = url ++ "/" ++ r.HtmlFileName ∧
      ∀ later, (ParseFilingSummary lower ⟨fs.MyReports ++ later⟩ url).2.1
        = url ++ "/" ++ r.HtmlFileName) ∧
    (matchesCashFlowStatement lower r = true →
      (∀ r1 ∈ fs.MyReports.take i, matchesCashFlowStatement lower r1 = false) →
      (ParseFilingSummary lower fs url).2.2 = url ++ "/" ++ r.HtmlFileName ∧
      ∀ later, (ParseFilingSummary lower ⟨fs.MyReports ++ later⟩ url).2.2
        = url ++ "/" ++ r.HtmlFileName) ∧
    ParseFilingSummary lower fs url =
      ((fs.MyReports.foldl (reportStep lower url) {}).balanceSheetURL,
       (fs.MyReports.foldl (reportStep lower url) {}).incomeStatementURL,
       (fs.MyReports.foldl (reportStep lower url) {}).cashFlowStatementURL) := by
  refine ⟨?_, ?_, ?_, ?_⟩
  · intro hp hfirst
    refine ⟨?_, fun later => ?_⟩
    · rw [parseFilingSummary_closed]; exact firstURL_of_first url _ _ i r hr hp hfirst
    · rw [parseFilingSummary_closed]
      exact firstURL_append_of_first url _ _ later i r hr hp hfirst
  · intro hp hfirst
    refine ⟨?_, fun later => ?_⟩
    · rw [parseFilingSummary_closed]; exact firstURL_of_first url _ _ i r hr hp hfirst
    · rw [parseFilingSummary_closed]
      exact firstURL_append_of_first url _ _ later i r hr hp hfirst
  · intro hp hfirst
    refine ⟨?_, fun later => ?_⟩
    · rw [parseFilingSummary_closed]; exact firstURL_of_first url _ _ i r hr hp hfirst
    · rw [parseFilingSummary_closed]
      exact firstURL_append_of_first url _ _ later i r hr hp hfirst
  · simp only [ParseFilingSummary, reportLoop_eq_foldl]

/-- Witness of C4: of two reports that both match "statements of income", the
earlier one (index 3) is selected. -/
theorem C4_first_match_witness :
    sampleCatalog.MyReports[3]? = some ⟨"R4.htm", "Consolidated Statements of Income"⟩ ∧
    matchesIncomeStatement asciiLower ⟨"R4.htm", "Consolidated Statements of Income"⟩ = true ∧
    matchesIncomeStatement asciiLower ⟨"R5.htm", "Consolidated Statements of Income (Restated)"⟩
      = true ∧
    (∀ r1 ∈ sampleCatalog.MyReports.take 3, matchesIncomeStatement asciiLower r1 = false) ∧
    (ParseFilingSummary asciiLower sampleCatalog "https://www.sec.gov/Archives/x").2.1
      = "https://www.sec.gov/Archives/x" ++ "/" ++ "R4.htm" :=
  ⟨by decide, by decide, by decide, by decide,
   ((C4_first_match asciiLower sampleCatalog "https://www.sec.gov/Archives/x" 3
      ⟨"R4.htm", "Consolidated Statements of Income"⟩ (by decide)).2.1 (by decide)
      (by decide)).1⟩

theorem reportURL_injective (url : String) (r1 r2 : Report)
    (h : reportURL url r1 = reportURL url r2) : r1.HtmlFileName = r2.HtmlFileName := by
  have h1 := congrArg String.data h
  simp only [reportURL, String.data_append] at h1
  exact String.ext (List.append_cancel_left h1)

/-- C5: "parenthetical" is excluded for the balance sheet only. The report
selected for the balance sheet never has "parenthetical" in its lowercased
title (the URL is empty or that of a report of the catalog that has a
balance-sheet fragment and no "parenthetical"); removing every parenthetical
report from the catalog, wherever it stands, leaves the balance-sheet URL
unchanged; when file names are distinct the balance-sheet URL differs from the
URL of every parenthetical report; and a parenthetical report is still
selected for the income statement or the cash-flow statement when it is the
first report with a fragment of that kind. -/
theorem C5_parenthetical_exclusion (lower : String → String) (fs : FilingSummary)
    (url : String) :
    ((ParseFilingSummary lower fs url).1 = "" ∨
      ∃ r ∈ fs.MyReports, isParenthetical lower r = false ∧
        containsAny lower balanceSheetNames r = true ∧
        (ParseFilingSummary lower fs url).1 = url ++ "/" ++ r.HtmlFileName) ∧
    (ParseFilingSummary lower fs url).1
      = (ParseFilingSummary lower ⟨fs.MyReports.filter fun r => !isParenthetical lower r⟩ url).1 ∧
    (∀ r ∈ fs.MyReports, isParenthetical lower r = true →
      (∀ r1 ∈ fs.MyReports, r1.HtmlFileName = r.HtmlFileName → r1 = r) →
      (ParseFilingSummary lower fs url).1 ≠ url ++ "/" ++ r.HtmlFileName) ∧
    (∀ (i : Nat) (r : Report), fs.MyReports[i]? = some r → isParenthetical lower r = true →
      (containsAny lower incomeStatementNames r = true →
        (∀ r1 ∈ fs.MyReports.take i, containsAny lower incomeStatementNames r1 = false) →
        (ParseFilingSummary lower fs url).2.1 = url ++ "/" ++ r.HtmlFileName) ∧
      (containsAny lower cashFlowStatementNames r = true →
        (∀ r1 ∈ fs.MyReports.take i, containsAny lower cashFlowStatementNames r1 = false) →
        (ParseFilingSummary lower fs url).2.2 = url ++ "/" ++ r.HtmlFileName)) := by
  have hsel : ∀ r, fs.MyReports.find? (matchesBalanceSheet lower) = some r →
      r ∈ fs.MyReports ∧ isParenthetical lower r = false ∧
        containsAny lower balanceSheetNames r = true := by
    intro r hf
    have hp : matchesBalanceSheet lower r = true := List.find?_some hf
    simp only [matchesBalanceSheet, Bool.and_eq_true, Bool.not_eq_true'] at hp
    exact ⟨List.mem_of_find?_eq_some hf, hp.2, hp.1⟩
  refine ⟨?_, ?_, ?_, ?_⟩
  · rw [parseFilingSummary_closed]
    simp only [firstURL]
    cases hf : fs.MyReports.find? (matchesBalanceSheet lower) with
    | none => exact Or.inl rfl
    | some r => exact Or.inr ⟨r, (hsel r hf).1, (hsel r hf).2.1, (hsel r hf).2.2, rfl⟩
  · rw [parseFilingSummary_closed, parseFilingSummary_closed]
    simp only [firstURL]
    rw [find?_filter_of_imp (matchesBalanceSheet lower) (fun r => !isParenthetical lower r)]
    intro a ha
    simp only [matchesBalanceSheet, Bool.and_eq_true] at ha
    exact ha.2
  · intro r hr hparen huniq
    rw [parseFilingSummary_closed]
    simp only [firstURL]
    cases hf : fs.MyReports.find? (matchesBalanceSheet lower) with
    | none => exact fun h => reportURL_ne_empty url r h.symm
    | some r0 =>
      intro h
      have h0 := hsel r0 hf
      have := huniq r0 h0.1 (reportURL_injective url r0 r h)
      rw [this, hparen] at h0
      exact absurd h0.2.1 (by simp)
  · intro i r hr _
    constructor
    · intro hp hfirst
      rw [parseFilingSummary_closed]
      exact firstURL_of_first url _ _ i r hr hp hfirst
    · intro hp hfirst
      rw [parseFilingSummary_closed]
      exact firstURL_of_first url _ _ i r hr hp hfirst

/-- Witness of C5: "Consolidated Balance Sheets" followed by "Consolidated
Balance Sheets (Parenthetical)" resolves the balance sheet to the first
report; in the opposite order the non-parenthetical report is still the one
selected, while the parenthetical income statement is selected for the income
statement. -/
theorem C5_parenthetical_exclusion_witness :
    (ParseFilingSummary asciiLower parentheticalCatalog "https://www.sec.gov/Archives/x").1
      = "https://www.sec.gov/Archives/x/R2.htm" ∧
    (ParseFilingSummary asciiLower parentheticalFirstCatalog "https://www.sec.gov/Archives/x").1
      = "https://www.sec.gov/Archives/x/R2.htm" ∧
    (ParseFilingSummary asciiLower parentheticalFirstCatalog "https://www.sec.gov/Archives/x").1
      ≠ "https://www.sec.gov/Archives/x" ++ "/" ++ "R3.htm" ∧
    (ParseFilingSummary asciiLower parentheticalFirstCatalog "https://www.sec.gov/Archives/x").2.1
      = "https://www.sec.gov/Archives/x" ++ "/" ++ "R4.htm" :=
  ⟨by decide, by decide,
   (C5_parenthetical_exclusion asciiLower parentheticalFirstCatalog
      "https://www.sec.gov/Archives/x").2.2.1
      ⟨"R3.htm", "Consolidated Balance Sheets (Parenthetical)"⟩ (by decide) (by decide)
      (by decide),
   ((C5_parenthetical_exclusion asciiLower parentheticalFirstCatalog
      "https://www.sec.gov/Archives/x").2.2.2 2
      ⟨"R4.htm", "Consolidated Statements of Income (Parenthetical)"⟩ (by decide)
      (by decide)).1 (by decide) (by decide)⟩

/-- C6: a statement kind is left unresolved (empty URL) exactly when no report
of the catalog matches it; each of the three URLs depends on the matches of
its own kind only, so a kind without a match does not affect the other two;
the function is total and returns three empty URLs on the empty catalog. -/
theorem C6_unresolved_iff_no_match (lower : String → String) (fs : FilingSummary)
    (url : String) :
    ((ParseFilingSummary lower fs url).1 = "" ↔
      ∀ r ∈ fs.MyReports, matchesBalanceSheet lower r = false) ∧
    ((ParseFilingSummary lower fs url).2.1 = "" ↔
      ∀ r ∈ fs.MyReports, matchesIncomeStatement lower r = false) ∧
    ((ParseFilingSummary lower fs url).2.2 = "" ↔
      ∀ r ∈ fs.MyReports, matchesCashFlowStatement lower r = false) ∧
    ParseFilingSummary lower fs url
      = (firstURL url (matchesBalanceSheet lower) fs.MyReports,
         firstURL url (matchesIncomeStatement lower) fs.MyReports,
         firstURL url (matchesCashFlowStatement lower) fs.MyReports) ∧
    ParseFilingSummary lower ⟨[]⟩ url = ("", "", "") := by
  refine ⟨?_, ?_, ?_, parseFilingSummary_closed lower fs url, rfl⟩
  · rw [parseFilingSummary_closed]; exact firstURL_eq_empty_iff url _ _
  · rw [parseFilingSummary_closed]; exact firstURL_eq_empty_iff url _ _
  · rw [parseFilingSummary_closed]; exact firstURL_eq_empty_iff url _ _

/-- Witness of C6: the sample catalog has no cash-flow report; the cash-flow
URL is empty while the other two kinds are resolved. -/
theorem C6_unresolved_iff_no_match_witness :
    (∀ r ∈ sampleCatalog.MyReports, matchesCashFlowStatement asciiLower r = false) ∧
    (ParseFilingSummary asciiLower sampleCatalog "https://www.sec.gov/Archives/x").2.2 = "" ∧
    ParseFilingSummary asciiLower sampleCatalog "https://www.sec.gov/Archives/x"
      = ("https://www.sec.gov/Archives/x/R2.htm", "https://www.sec.gov/Archives/x/R4.htm", "") :=
  ⟨by decide,
   (C6_unresolved_iff_no_match asciiLower sampleCatalog
      "https://www.sec.gov/Archives/x").2.2.1.mpr (by decide),
   by decide⟩

theorem completeBlock_false {divs : List MetaDiv} (h : completeBlock divs = false) :
    (∃ e, definitionText divs = .error e) ∨ (∃ e, detailText divs 2 = .error e) ∨
    (∃ e, detailText divs 3 = .error e) ∨ (∃ e, detailText divs 4 = .error e) := by
  match divs, h with
  | [], _ => exact Or.inl ⟨_, rfl⟩
  | [_], _ => exact Or.inr (Or.inl ⟨_, rfl⟩)
  | [_, _], _ => exact Or.inr (Or.inl ⟨_, rfl⟩)
  | d0 :: d1 :: d2 :: rest, h =>
    have key : ∀ k, (match d2.trs[k]? with
        | some tr => decide (2 ≤ tr.length)
        | none => false) = false → ∃ e, detailText (d0 :: d1 :: d2 :: rest) k = .error e := by
      intro k hk
      cases hk1 : d2.trs[k]? with
      | none => exact ⟨.indexOutOfRange, by simp [detailText, idx, hk1]⟩
      | some tr =>
        simp only [hk1, decide_eq_false_iff_not, Nat.not_le] at hk
        have : tr[1]? = none := List.getElem?_eq_none (by omega)
        exact ⟨.indexOutOfRange, by simp [detailText, idx, hk1, this]⟩
    simp only [completeBlock, List.all_cons, List.all_nil, Bool.and_true,
      Bool.and_eq_false_iff] at h
    rcases h with h | h | h | h
    · cases hp : d0.p with
      | none => exact Or.inl ⟨.nilPointer, by simp [definitionText, hp]⟩
      | some a => simp [hp] at h
    · exact Or.inr (Or.inl (key 2 h))
    · exact Or.inr (Or.inr (Or.inl (key 3 h)))
    · exact Or.inr (Or.inr (Or.inr (key 4 h)))

theorem metadataLoop_error (doc : Document) :
    ∀ (tags : List String) (t : String), t ∈ tags → completeMetadata doc t = false →
      ∀ m, ∃ e, metadataLoop doc tags m = .error e := by
  intro tags
  induction tags with
  | nil => intro t ht; simp at ht
  | cons a rest ih =>
    intro t ht hc m
    by_cases hat : completeMetadata doc a = true
    · have hne : t ≠ a := by
        intro h; rw [h, hat] at hc; cases hc
      have htr : t ∈ rest := by
        rcases List.mem_cons.mp ht with h | h
        · exact absurd h hne
        · exact h
      unfold completeMetadata at hat
      cases hb : doc.body a with
      | none => simp [hb] at hat
      | some divs =>
        rw [hb] at hat
        obtain ⟨x, y, z, w, hx, hy, hz, hw⟩ := completeBlock_elim hat
        simp only [metadataLoop, hb, hx, hy, hz, hw]
        exact ih t htr hc _
    · have hat1 : completeMetadata doc a = false := by simpa using hat
      unfold completeMetadata at hat1
      cases hb : doc.body a with
      | none => exact ⟨.nilPointer, by simp [metadataLoop, hb]⟩
      | some divs =>
        rw [hb] at hat1
        simp only [metadataLoop, hb]
        rcases completeBlock_false hat1 with ⟨e, he⟩ | ⟨e, he⟩ | ⟨e, he⟩ | ⟨e, he⟩
        · exact ⟨e, by simp [he]⟩
        · cases definitionText divs <;> simp [he]
        · cases definitionText divs <;> cases detailText divs 2 <;> simp [he]
        · cases definitionText divs <;> cases detailText divs 2 <;>
            cases detailText divs 3 <;> simp [he]

theorem bodyRow_tags {st st1 : ParseState} {row : Tr} (h : bodyRow st row = .ok st1) :
    (∀ t ∈ st.tags, t ∈ st1.tags) ∧ (isDataRow row = true → rowId row ∈ st1.tags) := by
  unfold bodyRow at h
  cases hv : rowOnclick row with
  | error e => simp [hv] at h
  | ok v =>
    have hid : rowId row = xbrlTagOf v := by simp [rowId, hv]
    by_cases hax : strContains (xbrlTagOf v) "Axis" = true
    · simp [hv, hax] at h
      subst h
      simp [isDataRow, isDataId, hid, hax]
    · by_cases hab : strContains (xbrlTagOf v) "Abstract" = true
      · simp [hv, hax, hab] at h
        subst h
        simp [isDataRow, isDataId, hid, hax, hab]
      · cases hc : cellLoop 0 row.tds st.items st.values false with
        | error e => simp [hv, hax, hab, hc] at h
        | ok p =>
          simp [hv, hax, hab, hc] at h
          subst h
          simp [hid]
          intro t ht; exact Or.inl ht

theorem bodyLoop_tags : ∀ (body : List Tr) (st st1 : ParseState), bodyLoop body st = .ok st1 →
    (∀ t ∈ st.tags, t ∈ st1.tags) ∧
    (∀ row ∈ body, isDataRow row = true → rowId row ∈ st1.tags) := by
  intro body
  induction body with
  | nil =>
    intro st st1 h
    simp only [bodyLoop, Except.ok.injEq] at h
    subst h
    exact ⟨fun t ht => ht, fun row hr => by simp at hr⟩
  | cons r rs ih =>
    intro st st1 h
    simp only [bodyLoop] at h
    cases hb : bodyRow st r with
    | error e => simp [hb] at h
    | ok st2 =>
      simp only [hb] at h
      obtain ⟨h1, h2⟩ := bodyRow_tags hb
      obtain ⟨h3, h4⟩ := ih st2 st1 h
      refine ⟨fun t ht => h3 t (h1 t ht), ?_⟩
      intro row hrow hd
      rcases List.mem_cons.mp hrow with heq | hmem
      · subst heq; exact h3 _ (h2 hd)
      · exact h4 row hmem hd

theorem balanceSheetRowLoop_header {hdr : Tr} {body : List Tr} {st1 : ParseState}
    (h : balanceSheetRowLoop (hdr :: body) {} = .ok st1) :
    ∃ st0 : ParseState, bodyLoop body st0 = .ok st1 ∧ st0.items = [] ∧
      st0.dates = hdr.ths.drop 1 ∧
      st0.values = List.replicate (hdr.ths.drop 1).length [] := by
  simp only [balanceSheetRowLoop, Bool.not_false, if_true, List.nil_append] at h
  cases hi : idx hdr.ths 0 with
  | error e => simp [hi] at h
  | ok title =>
    simp only [hi] at h
    rw [balanceSheetRowLoop_eq_bodyLoop _ _ rfl] at h
    exact ⟨_, h, rfl, rfl, rfl⟩

theorem incomeOrCashFlowRowLoop_header {hdr1 hdr2 : Tr} {body : List Tr} {st1 : ParseState}
    (h : incomeOrCashFlowRowLoop (hdr1 :: hdr2 :: body) {} = .ok st1) :
    ∃ st0 : ParseState, bodyLoop body st0 = .ok st1 ∧ st0.items = [] ∧
      st0.dates = hdr2.ths ∧ st0.values = List.replicate hdr2.ths.length [] := by
  simp only [incomeOrCashFlowRowLoop, Bool.not_false, if_true, List.nil_append] at h
  cases hi : idx hdr1.ths 0 with
  | error e => simp [hi] at h
  | ok title =>
    cases hj : idx hdr1.ths 1 with
    | error e => simp [hi, hj] at h
    | ok duration =>
      simp only [hi, hj, Bool.not_true, Bool.false_eq_true, if_false, Bool.not_false,
        if_true, List.nil_append] at h
      rw [incomeOrCashFlowRowLoop_eq_bodyLoop _ _ rfl rfl] at h
      exact ⟨_, h, rfl, rfl, rfl⟩

theorem parseBalanceSheet_error_of_metadata (doc : Document) (year qtr cik : String)
    (hdr : Tr) (body : List Tr) (row : Tr) (htable : doc.table = some (hdr :: body))
    (hrow : row ∈ body) (hdata : isDataRow row = true)
    (hmeta : completeMetadata doc (rowId row) = false) :
    ∃ e, ParseBalanceSheet doc year qtr cik = .error e := by
  simp only [ParseBalanceSheet, htable]
  cases hl : balanceSheetRowLoop (hdr :: body) {} with
  | error e => exact ⟨e, rfl⟩
  | ok st1 =>
    obtain ⟨st0, hb, _⟩ := balanceSheetRowLoop_header hl
    obtain ⟨e, he⟩ := metadataLoop_error doc st1.tags (rowId row)
      ((bodyLoop_tags body st0 st1 hb).2 row hrow hdata) hmeta {}
    exact ⟨e, by simp only [he]⟩

theorem parseIncomeOrCashFlowStatement_error_of_metadata (doc : Document)
    (year qtr cik : String) (hdr1 hdr2 : Tr) (body : List Tr) (row : Tr)
    (htable : doc.table = some (hdr1 :: hdr2 :: body))
    (hrow : row ∈ body) (hdata : isDataRow row = true)
    (hmeta : completeMetadata doc (rowId row) = false) :
    ∃ e, ParseIncomeOrCashFlowStatement doc year qtr cik = .error e := by
  simp only [ParseIncomeOrCashFlowStatement, htable]
  cases hl : incomeOrCashFlowRowLoop (hdr1 :: hdr2 :: body) {} with
  | error e => exact ⟨e, rfl⟩
  | ok st1 =>
    obtain ⟨st0, hb, _⟩ := incomeOrCashFlowRowLoop_header hl
    obtain ⟨e, he⟩ := metadataLoop_error doc st1.tags (rowId row)
      ((bodyLoop_tags body st0 st1 hb).2 row hrow hdata) hmeta {}
    exact ⟨e, by simp only [he]⟩

/-- C8, as stated, fails: with a metadata block that lacks one of the
fixed-index rows for the tag of one data row, the parse aborts with an index
out of range instead of returning records with empty metadata fields. -/
theorem C8_counterexample :
    completeMetadata missingMetadataDoc "Cash" = false ∧
    ParseBalanceSheet missingMetadataDoc "2020" "4" "320193" = .error .indexOutOfRange ∧
    ParseIncomeOrCashFlowStatement missingMetadataDurationDoc "2020" "4" "320193"
      = .error .indexOutOfRange :=
  ⟨by decide, by rfl, by rfl⟩

/-- C8, amended: a data row whose tag has no complete metadata block makes the
whole parse abort with a run-time fault, so no record is returned for any
row; on a well-formed table, where every data row's tag has a complete block,
the Definition, DataType, BalanceType and PeriodType of every record are those
read from the block of the record's tag. -/
theorem C8_missing_metadata (doc : Document) (year qtr cik : String) (body : List Tr) :
    (∀ row ∈ body, isDataRow row = true → completeMetadata doc (rowId row) = false →
      (∀ hdr : Tr, doc.table = some (hdr :: body) →
        ∃ e, ParseBalanceSheet doc year qtr cik = .error e) ∧
      (∀ hdr1 hdr2 : Tr, doc.table = some (hdr1 :: hdr2 :: body) →
        ∃ e, ParseIncomeOrCashFlowStatement doc year qtr cik = .error e)) ∧
    (∀ (title : String) (dates : List String), wellFormedBody doc dates.length body = true →
      (∀ hdr : Tr, doc.table = some (hdr :: body) → hdr.ths = title :: dates →
        ∃ recs, ParseBalanceSheet doc year qtr cik = .ok recs ∧
          ∀ r ∈ recs, completeMetadata doc r.Tag = true ∧
            r.Definition = definitionOf doc r.Tag ∧ r.DataType = detailOf doc 2 r.Tag ∧
            r.BalanceType = detailOf doc 3 r.Tag ∧ r.PeriodType = detailOf doc 4 r.Tag) ∧
      (∀ (hdr1 hdr2 : Tr) (duration : String) (more : List String),
        doc.table = some (hdr1 :: hdr2 :: body) → hdr1.ths = title :: duration :: more →
        hdr2.ths = dates →
        ∃ recs, ParseIncomeOrCashFlowStatement doc year qtr cik = .ok recs ∧
          ∀ r ∈ recs, completeMetadata doc r.Tag = true ∧
            r.Definition = definitionOf doc r.Tag ∧ r.DataType = detailOf doc 2 r.Tag ∧
            r.BalanceType = detailOf doc 3 r.Tag ∧ r.PeriodType = detailOf doc 4 r.Tag)) := by
  constructor
  · intro row hrow hdata hmeta
    exact ⟨fun hdr htable =>
        parseBalanceSheet_error_of_metadata doc year qtr cik hdr body row htable hrow hdata hmeta,
      fun hdr1 hdr2 htable =>
        parseIncomeOrCashFlowStatement_error_of_metadata doc year qtr cik hdr1 hdr2 body row
          htable hrow hdata hmeta⟩
  · intro title dates hwf
    constructor
    · intro hdr htable hhdr
      refine ⟨_, parseBalanceSheet_closed doc hdr body title dates year qtr cik htable hhdr hwf,
        ?_⟩
      intro r hr
      obtain ⟨ii, _, hr1⟩ := List.mem_flatMap.mp hr
      obtain ⟨d, hd, rfl⟩ := List.mem_map.mp hr1
      exact ⟨(wellFormedBody_mem hwf hd).2, rfl, rfl, rfl, rfl⟩
    · intro hdr1 hdr2 duration more htable hhdr1 hhdr2
      refine ⟨_, parseIncomeOrCashFlowStatement_closed doc hdr1 hdr2 body title duration more
        dates year qtr cik htable hhdr1 hhdr2 hwf, ?_⟩
      intro r hr
      obtain ⟨ii, _, hr1⟩ := List.mem_flatMap.mp hr
      obtain ⟨d, hd, rfl⟩ := List.mem_map.mp hr1
      exact ⟨(wellFormedBody_mem hwf hd).2, rfl, rfl, rfl, rfl⟩

/-- Witness of the amended C8: the truncated block of `Cash` aborts both
parsers; on the scenario page the metadata of `Cash` is read from its block. -/
theorem C8_missing_metadata_witness :
    (∃ e, ParseBalanceSheet missingMetadataDoc "2020" "4" "320193" = .error e) ∧
    (∃ e, ParseIncomeOrCashFlowStatement missingMetadataDurationDoc "2020" "4" "320193"
      = .error e) ∧
    (∃ recs, ParseBalanceSheet scenarioDoc "2020" "4" "320193" = .ok recs ∧
      ∀ r ∈ recs, completeMetadata scenarioDoc r.Tag = true ∧
        r.Definition = definitionOf scenarioDoc r.Tag ∧
        r.DataType = detailOf scenarioDoc 2 r.Tag ∧
        r.BalanceType = detailOf scenarioDoc 3 r.Tag ∧
        r.PeriodType = detailOf scenarioDoc 4 r.Tag) ∧
    (ParseBalanceSheet scenarioDoc "2020" "4" "320193").map
        (List.map fun r => (r.Tag, r.Definition, r.DataType, r.BalanceType, r.PeriodType))
      = .ok [("Cash", "Amount of currency on hand.", "xbrli:monetaryItemType", "debit",
              "instant"),
             ("Cash", "Amount of currency on hand.", "xbrli:monetaryItemType", "debit",
              "instant")] :=
  ⟨((C8_missing_metadata missingMetadataDoc "2020" "4" "320193" missingMetadataBody).1
      ⟨[], [labelTd "Cash" "Cash", valueTd "100"]⟩ (by decide) (by decide) (by decide)).1
      _ rfl,
   ((C8_missing_metadata missingMetadataDurationDoc "2020" "4" "320193" missingMetadataBody).1
      ⟨[], [labelTd "Cash" "Cash", valueTd "100"]⟩ (by decide) (by decide) (by decide)).2
      _ _ rfl,
   ((C8_missing_metadata scenarioDoc "2020" "4" "320193" scenarioBody).2 "Total Assets"
      ["Dec. 31, 2020", "Dec. 31, 2019"] (by decide)).1 scenarioHeader rfl rfl,
   by rfl⟩

theorem colLen_set (values : List (List String)) (k j : Nat) (x : List String)
    (hk : k < values.length) :
    colLen (values.set k x) j = if j = k then x.length else colLen values j := by
  unfold colLen
  by_cases h : j = k
  · subst h
    simp [List.getD_eq_getElem?_getD, List.getElem?_set, hk]
  · have h2 : k ≠ j := fun e => h e.symm
    simp [List.getD_eq_getElem?_getD, List.getElem?_set, h, h2]

theorem cellLoop_spec (vs : List Td) :
    ∀ (k : Nat) (items : List String) (values : List (List String))
      (p : List String × List (List String)),
      cellLoop (k + 1) vs items values true = .ok p →
      p.1 = items ∧ p.2.length = values.length ∧ (vs ≠ [] → k + vs.length ≤ values.length) ∧
      ∀ j, colLen p.2 j = colLen values j + (if k ≤ j ∧ j < k + vs.length then 1 else 0) := by
  induction vs with
  | nil =>
    intro k items values p h
    simp only [cellLoop, Except.ok.injEq] at h
    subst h
    refine ⟨rfl, rfl, fun hne => absurd rfl hne, ?_⟩
    intro j; simp
  | cons v vs ih =>
    intro k items values p h
    simp only [cellLoop, Bool.not_true, Bool.false_eq_true, if_false, Nat.add_sub_cancel] at h
    cases hc : values[k]? with
    | none => simp [hc] at h
    | some col =>
      simp only [hc] at h
      have hk : k < values.length := (List.getElem?_eq_some.mp hc).1
      obtain ⟨h1, h2, h3, h4⟩ := ih (k + 1) items _ p h
      rw [List.length_set] at h2 h3
      have h5 : k + (v :: vs).length ≤ values.length := by
        simp only [List.length_cons]
        cases vs with
        | nil => simp only [List.length_nil]; omega
        | cons w ws =>
          have := h3 (by simp)
          simp only [List.length_cons] at this ⊢
          omega
      refine ⟨h1, h2, fun _ => h5, ?_⟩
      intro j
      rw [h4 j, colLen_set _ _ _ _ hk]
      have hcol : colLen values k = col.length := by
        simp [colLen, List.getD_eq_getElem?_getD, hc]
      by_cases hjk : j = k
      · subst hjk
        simp [hcol]
      · simp only [hjk, if_false, List.length_cons]
        congr 1
        by_cases hc1 : k + 1 ≤ j ∧ j < k + 1 + vs.length
        · rw [if_pos hc1, if_pos (by omega)]
        · rw [if_neg hc1, if_neg (by omega)]

theorem bodyRow_cols {st st1 : ParseState} {row : Tr} (h : bodyRow st row = .ok st1) :
    st1.values.length = st.values.length ∧ st1.dates = st.dates ∧
    ((isDataRow row = false ∧ st1.items = st.items ∧ st1.values = st.values) ∨
     (isDataRow row = true ∧ row.tds ≠ [] ∧ st1.items.length = st.items.length + 1 ∧
      row.tds.length ≤ st.values.length + 1 ∧
      ∀ j, colLen st1.values j
        = colLen st.values j + (if j + 1 < row.tds.length then 1 else 0))) := by
  unfold bodyRow at h
  cases hv : rowOnclick row with
  | error e => simp [hv] at h
  | ok v =>
    have hid : rowId row = xbrlTagOf v := by simp [rowId, hv]
    by_cases hax : strContains (xbrlTagOf v) "Axis" = true
    · simp [hv, hax] at h
      subst h
      exact ⟨rfl, rfl, Or.inl ⟨by simp [isDataRow, isDataId, hid, hax], rfl, rfl⟩⟩
    · by_cases hab : strContains (xbrlTagOf v) "Abstract" = true
      · simp [hv, hax, hab] at h
        subst h
        exact ⟨rfl, rfl, Or.inl ⟨by simp [isDataRow, isDataId, hid, hax, hab], rfl, rfl⟩⟩
      · cases hc : cellLoop 0 row.tds st.items st.values false with
        | error e => simp [hv, hax, hab, hc] at h
        | ok p =>
          simp [hv, hax, hab, hc] at h
          subst h
          cases htds : row.tds with
          | nil => simp [rowOnclick, htds] at hv
          | cons td vs =>
            rw [htds] at hc
            simp only [cellLoop, Bool.not_false, if_true, Nat.zero_add] at hc
            obtain ⟨h1, h2, h3, h4⟩ := cellLoop_spec vs 0 _ _ p hc
            have hlen : vs.length ≤ st.values.length := by
              cases vs with
              | nil => simp
              | cons w ws => simpa using h3 (by simp)
            refine ⟨h2, rfl, Or.inr ⟨by simp [isDataRow, isDataId, hid, hax, hab], by simp,
              by simp [h1], by simp only [List.length_cons]; omega, ?_⟩⟩
            intro j
            simp only [h4 j, List.length_cons, Nat.zero_le, true_and, Nat.zero_add,
              Nat.add_lt_add_iff_right]

theorem bodyLoop_cols : ∀ (body : List Tr) (st st1 : ParseState),
    bodyLoop body st = .ok st1 →
    st1.values.length = st.values.length ∧ st1.dates = st.dates ∧
    (∀ j, colLen st.values j ≤ st.items.length → colLen st1.values j ≤ st1.items.length) ∧
    (∀ j, colLen st.values j < st.items.length → colLen st1.values j < st1.items.length) ∧
    (∀ row ∈ body, isDataRow row = true →
      row.tds ≠ [] ∧ row.tds.length ≤ st.values.length + 1 ∧
      ∀ j, row.tds.length ≤ j + 1 → colLen st.values j ≤ st.items.length →
        colLen st1.values j < st1.items.length) := by
  intro body
  induction body with
  | nil =>
    intro st st1 h
    simp only [bodyLoop, Except.ok.injEq] at h
    subst h
    exact ⟨rfl, rfl, fun _ h => h, fun _ h => h, fun row hr => by simp at hr⟩
  | cons r rs ih =>
    intro st st1 h
    simp only [bodyLoop] at h
    cases hb : bodyRow st r with
    | error e => simp [hb] at h
    | ok st2 =>
      simp only [hb] at h
      obtain ⟨hl2, hd2, hcase⟩ := bodyRow_cols hb
      obtain ⟨hl1, hd1, hle1, hlt1, hrows1⟩ := ih st2 st1 h
      have hle2 : ∀ j, colLen st.values j ≤ st.items.length →
          colLen st2.values j ≤ st2.items.length := by
        intro j hj
        rcases hcase with ⟨_, hi, hv⟩ | ⟨_, _, hi, _, hv⟩
        · rw [hi, hv]; exact hj
        · rw [hi, hv j]; split <;> omega
      have hlt2 : ∀ j, colLen st.values j < st.items.length →
          colLen st2.values j < st2.items.length := by
        intro j hj
        rcases hcase with ⟨_, hi, hv⟩ | ⟨_, _, hi, _, hv⟩
        · rw [hi, hv]; exact hj
        · rw [hi, hv j]; split <;> omega
      refine ⟨hl1.trans hl2, hd1.trans hd2, fun j hj => hle1 j (hle2 j hj),
        fun j hj => hlt1 j (hlt2 j hj), ?_⟩
      intro row hrow hdata
      rcases List.mem_cons.mp hrow with heq | hmem
      · subst heq
        rcases hcase with ⟨hnd, _, _⟩ | ⟨_, hne, hi, hlen, hv⟩
        · rw [hdata] at hnd; cases hnd
        · refine ⟨hne, hlen, ?_⟩
          intro j hj hcol
          apply hlt1 j
          rw [hi, hv j, if_neg (by omega)]
          omega
      · obtain ⟨hne, hlen, hcol⟩ := hrows1 row hmem hdata
        rw [hl2] at hlen
        exact ⟨hne, hlen, fun j hj hc => hcol j hj (hle2 j hc)⟩

theorem foldlM_error {ε β α : Type} (f : β → α → Except ε β) :
    ∀ (l : List α) (x : α), x ∈ l → (∀ acc, ∃ e, f acc x = .error e) →
      ∀ acc, ∃ e, l.foldlM f acc = .error e := by
  intro l
  induction l with
  | nil => intro x hx; simp at hx
  | cons y ys ih =>
    intro x hx hf acc
    rw [List.foldlM_cons]
    cases hy : f acc y with
    | error e => exact ⟨e, rfl⟩
    | ok acc1 =>
      rcases List.mem_cons.mp hx with heq | hmem
      · subst heq
        obtain ⟨e, he⟩ := hf acc
        rw [he] at hy; cases hy
      · exact ih x hmem hf acc1

theorem idx_error {α : Type} (xs : List α) (i : Nat) (h : xs.length ≤ i) :
    idx xs i = .error .indexOutOfRange := by
  simp [idx, List.getElem?_eq_none h]

theorem balanceSheetEmit_error (year qtr cik : String) (st : ParseState) (m : MetaCols)
    (ii : Nat) (h : colLen st.values ii < st.items.length)
    (acc : List BalanceSheetItem) :
    ∃ e, balanceSheetEmit year qtr cik st m ii acc (st.items.length - 1) = .error e := by
  unfold balanceSheetEmit
  cases h1 : idx st.dates ii with
  | error e => exact ⟨e, rfl⟩
  | ok date =>
    cases h2 : idx st.items (st.items.length - 1) with
    | error e => exact ⟨e, rfl⟩
    | ok item =>
      cases h3 : idx st.values ii with
      | error e => exact ⟨e, rfl⟩
      | ok col =>
        have hcol : col.length = colLen st.values ii := by
          unfold idx at h3
          cases hg : st.values[ii]? with
          | none => simp [hg] at h3
          | some c =>
            simp only [hg, Except.ok.injEq] at h3
            subst h3
            simp [colLen, List.getD_eq_getElem?_getD, hg]
        have h4 := idx_error col (st.items.length - 1) (by omega)
        exact ⟨.indexOutOfRange, by simp [bind, Except.bind, h4]⟩

theorem incomeOrCashFlowEmit_error (year qtr cik : String) (st : ParseState) (m : MetaCols)
    (ii : Nat) (h : colLen st.values ii < st.items.length)
    (acc : List IncomeOrCashFlowStatementItem) :
    ∃ e, incomeOrCashFlowEmit year qtr cik st m ii acc (st.items.length - 1) = .error e := by
  unfold incomeOrCashFlowEmit
  cases h1 : idx st.dates ii with
  | error e => exact ⟨e, rfl⟩
  | ok date =>
    cases h2 : idx st.items (st.items.length - 1) with
    | error e => exact ⟨e, rfl⟩
    | ok item =>
      cases h3 : idx st.values ii with
      | error e => exact ⟨e, rfl⟩
      | ok col =>
        have hcol : col.length = colLen st.values ii := by
          unfold idx at h3
          cases hg : st.values[ii]? with
          | none => simp [hg] at h3
          | some c =>
            simp only [hg, Except.ok.injEq] at h3
            subst h3
            simp [colLen, List.getD_eq_getElem?_getD, hg]
        have h4 := idx_error col (st.items.length - 1) (by omega)
        exact ⟨.indexOutOfRange, by simp [bind, Except.bind, h4]⟩

theorem colLen_replicate (n j : Nat) : colLen (List.replicate n []) j = 0 := by
  unfold colLen
  by_cases h : j < n
  · simp [List.getD_eq_getElem?_getD, List.getElem?_replicate, h]
  · simp [List.getD_eq_getElem?_getD, List.getElem?_replicate, h]

/-- After a successful row loop over a body that holds a data row whose cell
count differs from the number of columns, some column within the date range
is shorter than `items`. -/
theorem bodyLoop_short_column {body : List Tr} {st0 st1 : ParseState}
    (hb : bodyLoop body st0 = .ok st1) {n : Nat}
    (hvalues : st0.values = List.replicate n []) {row : Tr} (hrow : row ∈ body)
    (hdata : isDataRow row = true) (hlen : row.tds.length ≠ n + 1) :
    ∃ ii, ii < n ∧ colLen st1.values ii < st1.items.length := by
  obtain ⟨_, _, _, _, hrows⟩ := bodyLoop_cols body st0 st1 hb
  obtain ⟨hne, hle, hcol⟩ := hrows row hrow hdata
  have hpos : 0 < row.tds.length := List.length_pos.mpr hne
  rw [hvalues, List.length_replicate] at hle
  refine ⟨row.tds.length - 1, by omega, hcol _ (by omega) ?_⟩
  rw [hvalues, colLen_replicate]
  exact Nat.zero_le _

theorem parseBalanceSheet_error_of_mismatch (doc : Document) (year qtr cik : String)
    (hdr : Tr) (body : List Tr) (row : Tr) (htable : doc.table = some (hdr :: body))
    (hrow : row ∈ body) (hdata : isDataRow row = true)
    (hlen : row.tds.length ≠ (hdr.ths.drop 1).length + 1) :
    ∃ e, ParseBalanceSheet doc year qtr cik = .error e := by
  simp only [ParseBalanceSheet, htable]
  cases hl : balanceSheetRowLoop (hdr :: body) {} with
  | error e => exact ⟨e, rfl⟩
  | ok st1 =>
    obtain ⟨st0, hb, _, hdates, hvalues⟩ := balanceSheetRowLoop_header hl
    obtain ⟨ii, hii, hshort⟩ := bodyLoop_short_column hb hvalues hrow hdata hlen
    have hd1 : st1.dates = hdr.ths.drop 1 := (bodyLoop_cols body st0 st1 hb).2.1.trans hdates
    cases hm : metadataLoop doc st1.tags {} with
    | error e => exact ⟨e, by simp only [hm]⟩
    | ok m =>
      simp only [hm]
      apply foldlM_error _ _ ii (List.mem_range.mpr (by rw [hd1]; exact hii))
      intro acc
      exact foldlM_error _ _ (st1.items.length - 1) (List.mem_range.mpr (by omega))
        (balanceSheetEmit_error year qtr cik st1 m ii hshort) acc

theorem parseIncomeOrCashFlowStatement_error_of_mismatch (doc : Document)
    (year qtr cik : String) (hdr1 hdr2 : Tr) (body : List Tr) (row : Tr)
    (htable : doc.table = some (hdr1 :: hdr2 :: body))
    (hrow : row ∈ body) (hdata : isDataRow row = true)
    (hlen : row.tds.length ≠ hdr2.ths.length + 1) :
    ∃ e, ParseIncomeOrCashFlowStatement doc year qtr cik = .error e := by
  simp only [ParseIncomeOrCashFlowStatement, htable]
  cases hl : incomeOrCashFlowRowLoop (hdr1 :: hdr2 :: body) {} with
  | error e => exact ⟨e, rfl⟩
  | ok st1 =>
    obtain ⟨st0, hb, _, hdates, hvalues⟩ := incomeOrCashFlowRowLoop_header hl
    obtain ⟨ii, hii, hshort⟩ := bodyLoop_short_column hb hvalues hrow hdata hlen
    have hd1 : st1.dates = hdr2.ths := (bodyLoop_cols body st0 st1 hb).2.1.trans hdates
    cases hm : metadataLoop doc st1.tags {} with
    | error e => exact ⟨e, by simp only [hm]⟩
    | ok m =>
      simp only [hm]
      apply foldlM_error _ _ ii (List.mem_range.mpr (by rw [hd1]; exact hii))
      intro acc
      exact foldlM_error _ _ (st1.items.length - 1) (List.mem_range.mpr (by omega))
        (incomeOrCashFlowEmit_error year qtr cik st1 m ii hshort) acc

theorem tds_length_ne_of_valueCells {row : Tr} {n : Nat} (h : (valueCells row).length ≠ n) :
    row.tds.length ≠ n + 1 := by
  intro h1
  exact h (valueCells_length h1)

theorem idx_fault {α : Type} {xs : List α} {i : Nat} {e : Fault} (h : idx xs i = .error e) :
    e = .indexOutOfRange := by
  unfold idx at h
  cases hg : xs[i]? with
  | none =>
    simp only [hg, Except.error.injEq] at h
    exact h.symm
  | some y => simp [hg] at h

theorem idx_then_fault {α β : Type} {xs : List α} {i : Nat} {next : α → Except Fault β}
    {e : Fault} (h : (idx xs i >>= next) = .error e) :
    e = .indexOutOfRange ∨ ∃ x, next x = .error e := by
  cases hx : idx xs i with
  | error e1 =>
    rw [hx] at h
    have h1 : e1 = e := by
      simpa [bind, Except.bind] using h
    left
    rw [← h1]
    exact idx_fault hx
  | ok x =>
    rw [hx] at h
    exact Or.inr ⟨x, h⟩

theorem cellLoop_fault : ∀ (tds : List Td) (i : Nat) (items : List String)
    (values : List (List String)) (found : Bool) (e : Fault),
    cellLoop i tds items values found = .error e → e = .indexOutOfRange := by
  intro tds
  induction tds with
  | nil => intro i items values found e h; simp [cellLoop] at h
  | cons v vs ih =>
    intro i items values found e h
    cases found with
    | false =>
      simp only [cellLoop, Bool.not_false, if_true] at h
      exact ih _ _ _ _ e h
    | true =>
      simp only [cellLoop, Bool.not_true, Bool.false_eq_true, if_false] at h
      cases hc : values[i - 1]? with
      | none =>
        simp only [hc, Except.error.injEq] at h
        exact h.symm
      | some col =>
        simp only [hc] at h
        exact ih _ _ _ _ e h

theorem bodyRow_fault {st : ParseState} {row : Tr} {e : Fault}
    (h : bodyRow st row = .error e) (hid : hasId row = true) : e = .indexOutOfRange := by
  obtain ⟨v, hv, _⟩ := hasId_elim hid
  unfold bodyRow at h
  by_cases hax : strContains (xbrlTagOf v) "Axis" = true
  · simp [hv, hax] at h
  · by_cases hab : strContains (xbrlTagOf v) "Abstract" = true
    · simp [hv, hax, hab] at h
    · cases hc : cellLoop 0 row.tds st.items st.values false with
      | error e1 =>
        simp [hv, hax, hab, hc] at h
        rw [← h]
        exact cellLoop_fault _ _ _ _ _ e1 hc
      | ok p => simp [hv, hax, hab, hc] at h

theorem bodyLoop_fault : ∀ (body : List Tr) (st : ParseState) (e : Fault),
    bodyLoop body st = .error e → (∀ row ∈ body, hasId row = true) →
    e = .indexOutOfRange := by
  intro body
  induction body with
  | nil => intro st e h; simp [bodyLoop] at h
  | cons r rs ih =>
    intro st e h hid
    simp only [bodyLoop] at h
    cases hb : bodyRow st r with
    | error e1 =>
      simp only [hb, Except.error.injEq] at h
      rw [← h]
      exact bodyRow_fault hb (hid r (List.mem_cons_self _ _))
    | ok st2 =>
      simp only [hb] at h
      exact ih st2 e h (fun row hrow => hid row (List.mem_cons_of_mem _ hrow))

theorem bodyRow_tags_from {st st1 : ParseState} {row : Tr} (h : bodyRow st row = .ok st1) :
    ∀ t ∈ st1.tags, t ∈ st.tags ∨ (isDataRow row = true ∧ rowId row = t) := by
  unfold bodyRow at h
  cases hv : rowOnclick row with
  | error e => simp [hv] at h
  | ok v =>
    have hid : rowId row = xbrlTagOf v := by simp [rowId, hv]
    by_cases hax : strContains (xbrlTagOf v) "Axis" = true
    · simp [hv, hax] at h
      subst h
      exact fun t ht => Or.inl ht
    · by_cases hab : strContains (xbrlTagOf v) "Abstract" = true
      · simp [hv, hax, hab] at h
        subst h
        exact fun t ht => Or.inl ht
      · cases hc : cellLoop 0 row.tds st.items st.values false with
        | error e => simp [hv, hax, hab, hc] at h
        | ok p =>
          simp [hv, hax, hab, hc] at h
          subst h
          intro t ht
          simp only [List.mem_append, List.mem_singleton] at ht
          rcases ht with ht | ht
          · exact Or.inl ht
          · right
            subst ht
            exact ⟨by simp [isDataRow, isDataId, hid, hax, hab], hid⟩

theorem bodyLoop_tags_from : ∀ (body : List Tr) (st st1 : ParseState),
    bodyLoop body st = .ok st1 →
    ∀ t ∈ st1.tags, t ∈ st.tags ∨ ∃ row ∈ body, isDataRow row = true ∧ rowId row = t := by
  intro body
  induction body with
  | nil =>
    intro st st1 h
    simp only [bodyLoop, Except.ok.injEq] at h
    subst h
    exact fun t ht => Or.inl ht
  | cons r rs ih =>
    intro st st1 h t ht
    simp only [bodyLoop] at h
    cases hb : bodyRow st r with
    | error e => simp [hb] at h
    | ok st2 =>
      simp only [hb] at h
      rcases ih st2 st1 h t ht with h1 | ⟨row, hrow, hd, hr⟩
      · rcases bodyRow_tags_from hb t h1 with h2 | ⟨hd, hr⟩
        · exact Or.inl h2
        · exact Or.inr ⟨r, List.mem_cons_self _ _, hd, hr⟩
      · exact Or.inr ⟨row, List.mem_cons_of_mem _ hrow, hd, hr⟩

theorem foldlM_fault {β α : Type} (f : β → α → Except Fault β) (P : Fault → Prop)
    (hstep : ∀ acc x e, f acc x = .error e → P e) :
    ∀ (l : List α) (acc : β) (e : Fault), l.foldlM f acc = .error e → P e := by
  intro l
  induction l with
  | nil =>
    intro acc e h
    simp [List.foldlM_nil, pure, Except.pure] at h
  | cons y ys ih =>
    intro acc e h
    rw [List.foldlM_cons] at h
    cases hy : f acc y with
    | error e1 =>
      rw [hy] at h
      have h1 : e1 = e := by simpa [bind, Except.bind] using h
      rw [← h1]
      exact hstep acc y e1 hy
    | ok acc1 =>
      rw [hy] at h
      exact ih acc1 e h

theorem identifiedBody_elim {doc : Document} {body : List Tr}
    (h : identifiedBody doc body = true) :
    (∀ row ∈ body, hasId row = true) ∧
    (∀ row ∈ body, isDataRow row = true → completeMetadata doc (rowId row) = true) := by
  simp only [identifiedBody, List.all_eq_true, Bool.and_eq_true, Bool.or_eq_true,
    Bool.not_eq_true'] at h
  refine ⟨fun row hrow => (h row hrow).1, ?_⟩
  intro row hrow hd
  rcases (h row hrow).2 with h1 | h1
  · rw [hd] at h1; cases h1
  · exact h1

theorem balanceSheetRowLoop_split (hdr : Tr) (body : List Tr) :
    balanceSheetRowLoop (hdr :: body) {} = .error .indexOutOfRange ∨
    ∃ st0 : ParseState, st0.tags = [] ∧
      balanceSheetRowLoop (hdr :: body) {} = bodyLoop body st0 := by
  simp only [balanceSheetRowLoop, Bool.not_false, if_true, List.nil_append]
  cases hi : idx hdr.ths 0 with
  | error e => left; rw [idx_fault hi]
  | ok title =>
    right
    exact ⟨_, rfl, balanceSheetRowLoop_eq_bodyLoop _ _ rfl⟩

theorem incomeOrCashFlowRowLoop_split (hdr1 hdr2 : Tr) (body : List Tr) :
    incomeOrCashFlowRowLoop (hdr1 :: hdr2 :: body) {} = .error .indexOutOfRange ∨
    ∃ st0 : ParseState, st0.tags = [] ∧
      incomeOrCashFlowRowLoop (hdr1 :: hdr2 :: body) {} = bodyLoop body st0 := by
  simp only [incomeOrCashFlowRowLoop, Bool.not_false, if_true, List.nil_append]
  cases hi : idx hdr1.ths 0 with
  | error e => left; rw [idx_fault hi]
  | ok title =>
    cases hj : idx hdr1.ths 1 with
    | error e => left; rw [idx_fault hj]
    | ok duration =>
      right
      simp only [Bool.not_true, Bool.false_eq_true, if_false, Bool.not_false, if_true,
        List.nil_append]
      exact ⟨_, rfl, incomeOrCashFlowRowLoop_eq_bodyLoop _ _ rfl rfl⟩

theorem balanceSheetEmit_fault {year qtr cik : String} {st : ParseState} {m : MetaCols}
    {ii i : Nat} {acc : List BalanceSheetItem} {e : Fault}
    (h : balanceSheetEmit year qtr cik st m ii acc i = .error e) : e = .indexOutOfRange := by
  unfold balanceSheetEmit at h
  rcases idx_then_fault h with h1 | ⟨_, h⟩
  · exact h1
  rcases idx_then_fault h with h1 | ⟨_, h⟩
  · exact h1
  rcases idx_then_fault h with h1 | ⟨_, h⟩
  · exact h1
  rcases idx_then_fault h with h1 | ⟨_, h⟩
  · exact h1
  rcases idx_then_fault h with h1 | ⟨_, h⟩
  · exact h1
  rcases idx_then_fault h with h1 | ⟨_, h⟩
  · exact h1
  rcases idx_then_fault h with h1 | ⟨_, h⟩
  · exact h1
  rcases idx_then_fault h with h1 | ⟨_, h⟩
  · exact h1
  rcases idx_then_fault h with h1 | ⟨_, h⟩
  · exact h1
  rcases idx_then_fault h with h1 | ⟨_, h⟩
  · exact h1
  rcases idx_then_fault h with h1 | ⟨_, h⟩
  · exact h1
  simp [pure, Except.pure] at h

theorem incomeOrCashFlowEmit_fault {year qtr cik : String} {st : ParseState} {m : MetaCols}
    {ii i : Nat} {acc : List IncomeOrCashFlowStatementItem} {e : Fault}
    (h : incomeOrCashFlowEmit year qtr cik st m ii acc i = .error e) : e = .indexOutOfRange := by
  unfold incomeOrCashFlowEmit at h
  rcases idx_then_fault h with h1 | ⟨_, h⟩
  · exact h1
  rcases idx_then_fault h with h1 | ⟨_, h⟩
  · exact h1
  rcases idx_then_fault h with h1 | ⟨_, h⟩
  · exact h1
  rcases idx_then_fault h with h1 | ⟨_, h⟩
  · exact h1
  rcases idx_then_fault h with h1 | ⟨_, h⟩
  · exact h1
  rcases idx_then_fault h with h1 | ⟨_, h⟩
  · exact h1
  rcases idx_then_fault h with h1 | ⟨_, h⟩
  · exact h1
  rcases idx_then_fault h with h1 | ⟨_, h⟩
  · exact h1
  rcases idx_then_fault h with h1 | ⟨_, h⟩
  · exact h1
  rcases idx_then_fault h with h1 | ⟨_, h⟩
  · exact h1
  rcases idx_then_fault h with h1 | ⟨_, h⟩
  · exact h1
  simp [pure, Except.pure] at h

theorem ParseBalanceSheet_fault (doc : Document) (year qtr cik : String) (hdr : Tr)
    (body : List Tr) (e : Fault) (htable : doc.table = some (hdr :: body))
    (hid : identifiedBody doc body = true)
    (h : ParseBalanceSheet doc year qtr cik = .error e) : e = .indexOutOfRange := by
  obtain ⟨hids, hmetas⟩ := identifiedBody_elim hid
  unfold ParseBalanceSheet at h
  rcases balanceSheetRowLoop_split hdr body with hl | ⟨st0, htags0, hl⟩
  · simp only [htable, hl, Except.error.injEq] at h
    exact h.symm
  · cases hb : bodyLoop body st0 with
    | error e1 =>
      simp only [htable, hl, hb, Except.error.injEq] at h
      rw [← h]
      exact bodyLoop_fault body st0 e1 hb hids
    | ok st1 =>
      have hmeta := metadataLoop_ok doc st1.tags {} (by
        intro t ht
        rcases bodyLoop_tags_from body st0 st1 hb t ht with h1 | ⟨row, hrow, hd, hr⟩
        · rw [htags0] at h1; cases h1
        · rw [← hr]; exact hmetas row hrow hd)
      simp only [htable, hl, hb, hmeta] at h
      exact foldlM_fault _ (fun e => e = .indexOutOfRange)
        (fun acc ii e1 hstep =>
          foldlM_fault _ (fun e => e = .indexOutOfRange)
            (fun acc i e2 hemit => balanceSheetEmit_fault hemit) _ acc e1 hstep)
        _ [] e h

theorem ParseIncomeOrCashFlowStatement_fault (doc : Document) (year qtr cik : String) (hdr1 hdr2 : Tr)
    (body : List Tr) (e : Fault) (htable : doc.table = some (hdr1 :: hdr2 :: body))
    (hid : identifiedBody doc body = true)
    (h : ParseIncomeOrCashFlowStatement doc year qtr cik = .error e) : e = .indexOutOfRange := by
  obtain ⟨hids, hmetas⟩ := identifiedBody_elim hid
  unfold ParseIncomeOrCashFlowStatement at h
  rcases incomeOrCashFlowRowLoop_split hdr1 hdr2 body with hl | ⟨st0, htags0, hl⟩
  · simp only [htable, hl, Except.error.injEq] at h
    exact h.symm
  · cases hb : bodyLoop body st0 with
    | error e1 =>
      simp only [htable, hl, hb, Except.error.injEq] at h
      rw [← h]
      exact bodyLoop_fault body st0 e1 hb hids
    | ok st1 =>
      have hmeta := metadataLoop_ok doc st1.tags {} (by
        intro t ht
        rcases bodyLoop_tags_from body st0 st1 hb t ht with h1 | ⟨row, hrow, hd, hr⟩
        · rw [htags0] at h1; cases h1
        · rw [← hr]; exact hmetas row hrow hd)
      simp only [htable, hl, hb, hmeta] at h
      exact foldlM_fault _ (fun e => e = .indexOutOfRange)
        (fun acc ii e1 hstep =>
          foldlM_fault _ (fun e => e = .indexOutOfRange)
            (fun acc i e2 hemit => incomeOrCashFlowEmit_fault hemit) _ acc e1 hstep)
        _ [] e h

/-- C7, as stated, fails: a data row with fewer (or more) value cells than
date columns is not dropped. With the row present both parsers abort with an
index out of range; with the row absent the other row yields its two
records. -/
theorem C7_counterexample :
    ParseBalanceSheet (twoDateDoc shortRowBody) "2020" "4" "320193"
      = .error .indexOutOfRange ∧
    ParseBalanceSheet (twoDateDoc longRowBody) "2020" "4" "320193"
      = .error .indexOutOfRange ∧
    ParseIncomeOrCashFlowStatement (twoDateDurationDoc shortRowBody) "2020" "4" "320193"
      = .error .indexOutOfRange ∧
    ParseIncomeOrCashFlowStatement (twoDateDurationDoc longRowBody) "2020" "4" "320193"
      = .error .indexOutOfRange ∧
    (ParseBalanceSheet (twoDateDoc (shortRowBody.drop 1)) "2020" "4" "320193").map
        (List.map fun r => (r.Date, r.Item, r.Value))
      = .ok [("Dec. 31, 2020", "Inventory", "40"), ("Dec. 31, 2019", "Inventory", "35")] ∧
    (ParseIncomeOrCashFlowStatement (twoDateDurationDoc (shortRowBody.drop 1))
        "2020" "4" "320193").map (List.map fun r => (r.Date, r.Item, r.Value))
      = .ok [("Dec. 31, 2020", "Inventory", "40"), ("Dec. 31, 2019", "Inventory", "35")] :=
  ⟨by rfl, by rfl, by rfl, by rfl, by rfl, by rfl⟩

/-- C7, amended: a data row whose value-cell count differs from the
date-column count (fewer or more cells) is not dropped and no mismatch is
recorded: the parse of the whole table aborts with a run-time fault and no
record is returned, for that row or for any other; when the table has no
other defect (every body row carries a concept identifier and every data
row's tag has a complete metadata block) that fault is an index out of
range. -/
theorem C7_cell_count_mismatch (doc : Document) (year qtr cik title : String)
    (dates : List String) (body : List Tr) (row : Tr) (hrow : row ∈ body)
    (hdata : isDataRow row = true) (hlen : (valueCells row).length ≠ dates.length) :
    (∀ hdr : Tr, doc.table = some (hdr :: body) → hdr.ths = title :: dates →
      (∃ e, ParseBalanceSheet doc year qtr cik = .error e) ∧
      (identifiedBody doc body = true →
        ParseBalanceSheet doc year qtr cik = .error .indexOutOfRange)) ∧
    (∀ hdr1 hdr2 : Tr, doc.table = some (hdr1 :: hdr2 :: body) → hdr2.ths = dates →
      (∃ e, ParseIncomeOrCashFlowStatement doc year qtr cik = .error e) ∧
      (identifiedBody doc body = true →
        ParseIncomeOrCashFlowStatement doc year qtr cik = .error .indexOutOfRange)) := by
  constructor
  · intro hdr htable hhdr
    have hex : ∃ e, ParseBalanceSheet doc year qtr cik = .error e := by
      apply parseBalanceSheet_error_of_mismatch doc year qtr cik hdr body row htable hrow hdata
      rw [hhdr]
      exact tds_length_ne_of_valueCells hlen
    refine ⟨hex, fun hid => ?_⟩
    obtain ⟨e, he⟩ := hex
    rw [he, ParseBalanceSheet_fault doc year qtr cik hdr body e htable hid he]
  · intro hdr1 hdr2 htable hhdr2
    have hex : ∃ e, ParseIncomeOrCashFlowStatement doc year qtr cik = .error e := by
      apply parseIncomeOrCashFlowStatement_error_of_mismatch doc year qtr cik hdr1 hdr2 body
        row htable hrow hdata
      rw [hhdr2]
      exact tds_length_ne_of_valueCells hlen
    refine ⟨hex, fun hid => ?_⟩
    obtain ⟨e, he⟩ := hex
    rw [he, ParseIncomeOrCashFlowStatement_fault doc year qtr cik hdr1 hdr2 body e htable hid he]

/-- Witness of the amended C7: the row `Cash` with one value cell under two
date columns, in a table without other defect, aborts both parsers with an
index out of range. -/
theorem C7_cell_count_mismatch_witness :
    (⟨[], [labelTd "Cash" "Cash", valueTd "100"]⟩ : Tr) ∈ shortRowBody ∧
    isDataRow ⟨[], [labelTd "Cash" "Cash", valueTd "100"]⟩ = true ∧
    (valueCells ⟨[], [labelTd "Cash" "Cash", valueTd "100"]⟩).length ≠ 2 ∧
    identifiedBody (twoDateDoc shortRowBody) shortRowBody = true ∧
    identifiedBody (twoDateDurationDoc shortRowBody) shortRowBody = true ∧
    ParseBalanceSheet (twoDateDoc shortRowBody) "2020" "4" "320193"
      = .error .indexOutOfRange ∧
    ParseIncomeOrCashFlowStatement (twoDateDurationDoc shortRowBody) "2020" "4" "320193"
      = .error .indexOutOfRange :=
  ⟨by decide, by decide, by decide, by decide, by decide,
   ((C7_cell_count_mismatch (twoDateDoc shortRowBody) "2020" "4" "320193" "Total Assets"
      ["Dec. 31, 2020", "Dec. 31, 2019"] shortRowBody
      ⟨[], [labelTd "Cash" "Cash", valueTd "100"]⟩ (by decide) (by decide) (by decide)).1
      scenarioHeader rfl rfl).2 (by decide),
   ((C7_cell_count_mismatch (twoDateDurationDoc shortRowBody) "2020" "4" "320193" "Total Assets"
      ["Dec. 31, 2020", "Dec. 31, 2019"] shortRowBody
      ⟨[], [labelTd "Cash" "Cash", valueTd "100"]⟩ (by decide) (by decide) (by decide)).2
      durationHeader datesHeader rfl rfl).2 (by decide)⟩

/-- C9, as stated, fails: a first row without header cells makes
`ParseBalanceSheet` reach an index out of range (`columnHeaders[0]`), and a
first row with a single header cell makes `ParseIncomeOrCashFlowStatement`
reach one (`columnHeaders[1]`). -/
theorem C9_counterexample :
    ParseBalanceSheet headerlessDoc "2020" "4" "320193" = .error .indexOutOfRange ∧
    ParseIncomeOrCashFlowStatement headerlessDoc "2020" "4" "320193"
      = .error .indexOutOfRange ∧
    ParseIncomeOrCashFlowStatement shortHeaderDoc "2020" "4" "320193"
      = .error .indexOutOfRange :=
  ⟨by rfl, by rfl, by rfl⟩

/-- C9, amended: the parsers have no failure value. On a table without rows
both return the empty record list; on a first row without header cells both
abort with an index out of range, and so does
`ParseIncomeOrCashFlowStatement` on a first row with a single header cell; on
a page without table both abort on the nil node that `soup` hands back. -/
theorem C9_malformed_document (doc : Document) (year qtr cik : String) :
    (doc.table = some [] →
      ParseBalanceSheet doc year qtr cik = .ok [] ∧
      ParseIncomeOrCashFlowStatement doc year qtr cik = .ok []) ∧
    (∀ (hdr : Tr) (rest : List Tr), doc.table = some (hdr :: rest) → hdr.ths = [] →
      ParseBalanceSheet doc year qtr cik = .error .indexOutOfRange ∧
      ParseIncomeOrCashFlowStatement doc year qtr cik = .error .indexOutOfRange) ∧
    (∀ (hdr : Tr) (rest : List Tr) (t : String), doc.table = some (hdr :: rest) →
      hdr.ths = [t] →
      ParseIncomeOrCashFlowStatement doc year qtr cik = .error .indexOutOfRange) ∧
    (doc.table = none →
      ParseBalanceSheet doc year qtr cik = .error .nilPointer ∧
      ParseIncomeOrCashFlowStatement doc year qtr cik = .error .nilPointer) := by
  refine ⟨?_, ?_, ?_, ?_⟩
  · intro h
    constructor
    · simp only [ParseBalanceSheet, h, balanceSheetRowLoop, metadataLoop]
      rfl
    · simp only [ParseIncomeOrCashFlowStatement, h, incomeOrCashFlowRowLoop, metadataLoop]
      rfl
  · intro hdr rest h hths
    constructor
    · simp [ParseBalanceSheet, h, balanceSheetRowLoop, hths, idx]
    · simp [ParseIncomeOrCashFlowStatement, h, incomeOrCashFlowRowLoop, hths, idx]
  · intro hdr rest t h hths
    simp [ParseIncomeOrCashFlowStatement, h, incomeOrCashFlowRowLoop, hths, idx]
  · intro h
    constructor
    · simp [ParseBalanceSheet, h]
    · simp [ParseIncomeOrCashFlowStatement, h]

/-- Witness of the amended C9 on the three pages. -/
theorem C9_malformed_document_witness :
    (emptyTableDoc.table = some [] ∧
      ParseBalanceSheet emptyTableDoc "2020" "4" "320193" = .ok [] ∧
      ParseIncomeOrCashFlowStatement emptyTableDoc "2020" "4" "320193" = .ok []) ∧
    ParseBalanceSheet headerlessDoc "2020" "4" "320193" = .error .indexOutOfRange ∧
    ParseIncomeOrCashFlowStatement shortHeaderDoc "2020" "4" "320193"
      = .error .indexOutOfRange :=
  ⟨⟨rfl, (C9_malformed_document emptyTableDoc "2020" "4" "320193").1 rfl⟩,
   ((C9_malformed_document headerlessDoc "2020" "4" "320193").2.1 _ _ rfl rfl).1,
   (C9_malformed_document shortHeaderDoc "2020" "4" "320193").2.2.1 _ _ "Statements of Income"
     rfl rfl⟩

/-- C10: duration-style header reconstruction. On a well-formed table whose
first row has at least two header cells, `ParseIncomeOrCashFlowStatement`
takes the title from the first header cell of the first row and the duration
from its second header cell, uses the header cells of the second row, in
order, as the date columns (one block of `m` records per cell), emits no
record for either header row (every record comes from a data row of the
body), and puts the same duration in every record. -/
theorem C10_duration_header (doc : Document) (year qtr cik : String) (hdr1 hdr2 : Tr)
    (title duration : String) (more : List String) (body : List Tr)
    (htable : doc.table = some (hdr1 :: hdr2 :: body))
    (hhdr1 : hdr1.ths = title :: duration :: more)
    (hwf : wellFormedBody doc hdr2.ths.length body = true) :
    ∃ recs, ParseIncomeOrCashFlowStatement doc year qtr cik = .ok recs ∧
      recs.length = (body.filter isDataRow).length * hdr2.ths.length ∧
      (∀ r ∈ recs, r.Title = title ∧ r.Duration = duration ∧
        ∃ row ∈ body, isDataRow row = true ∧ r.Tag = rowId row ∧ labelCell row = some r.Item) ∧
      (∀ ii i : Nat, ii < hdr2.ths.length → i < (body.filter isDataRow).length →
        ∃ r, recs[ii * (body.filter isDataRow).length + i]? = some r ∧
          hdr2.ths[ii]? = some r.Date) := by
  refine ⟨_, parseIncomeOrCashFlowStatement_closed doc hdr1 hdr2 body title duration more
    hdr2.ths year qtr cik htable hhdr1 rfl hwf, ?_, ?_, ?_⟩
  · rw [length_flatMap_blocks _ (scan "" "" body).length _ (by intro a; simp), scan_length,
      Nat.mul_comm]
  · intro r hr
    obtain ⟨ii, _, hr1⟩ := List.mem_flatMap.mp hr
    obtain ⟨d, hd, rfl⟩ := List.mem_map.mp hr1
    refine ⟨rfl, rfl, d.row, (mem_scan_row hd).1, (mem_scan_row hd).2, rfl, ?_⟩
    simpa [incomeOrCashFlowRecord] using labelCell_of_length (wellFormedBody_mem hwf hd).1
  · intro ii i hii hi
    rw [← scan_length body "" ""] at hi ⊢
    have hd : (scan "" "" body)[i]? = some ((scan "" "" body)[i]) := List.getElem?_eq_getElem hi
    refine ⟨incomeOrCashFlowRecord doc year qtr cik title duration (hdr2.ths.getD ii "") ii
      ((scan "" "" body)[i]), ?_, getElem?_getD_of_lt _ _ _ hii⟩
    rw [getElem?_flatMap_blocks _ (scan "" "" body).length _ ii i (by intro a; simp) hii hi,
      List.getElem?_map, hd]
    rfl

/-- Witness of C10: the duration-style scenario page. -/
theorem C10_duration_header_witness :
    wellFormedBody durationDoc datesHeader.ths.length scenarioBody = true ∧
    (∃ recs, ParseIncomeOrCashFlowStatement durationDoc "2020" "4" "320193" = .ok recs ∧
      recs.length = (scenarioBody.filter isDataRow).length * datesHeader.ths.length ∧
      (∀ r ∈ recs, r.Title = "Statements of Income" ∧ r.Duration = "12 Months Ended" ∧
        ∃ row ∈ scenarioBody, isDataRow row = true ∧ r.Tag = rowId row ∧
          labelCell row = some r.Item) ∧
      (∀ ii i : Nat, ii < datesHeader.ths.length → i < (scenarioBody.filter isDataRow).length →
        ∃ r, recs[ii * (scenarioBody.filter isDataRow).length + i]? = some r ∧
          datesHeader.ths[ii]? = some r.Date)) ∧
    (ParseIncomeOrCashFlowStatement durationDoc "2020" "4" "320193").map
        (List.map fun r => (r.Title, r.Duration, r.Date, r.Item, r.Value))
      = .ok [("Statements of Income", "12 Months Ended", "Dec. 31, 2020", "Cash", "100"),
             ("Statements of Income", "12 Months Ended", "Dec. 31, 2019", "Cash", "90")] :=
  ⟨by decide,
   C10_duration_header durationDoc "2020" "4" "320193" durationHeader datesHeader
     "Statements of Income" "12 Months Ended" [] scenarioBody rfl rfl (by decide),
   by rfl⟩

theorem hasPrefixChars_append_self : ∀ (p s : List Char), hasPrefixChars (p ++ s) p = true := by
  intro p
  induction p with
  | nil => intro s; cases s <;> rfl
  | cons c p ih => intro s; simp [hasPrefixChars, ih]

theorem removeFirstChars_prefix (p s : List Char) : removeFirstChars (p ++ s) p = s := by
  cases h : p ++ s with
  | nil =>
    have hs : s = [] := (List.append_eq_nil.mp h).2
    simp [removeFirstChars, hs]
  | cons c rest =>
    have hp := hasPrefixChars_append_self p s
    rw [h] at hp
    simp only [removeFirstChars, hp, if_true]
    rw [← h, List.drop_left]

theorem removeFirstChars_cons (c : Char) (s old : List Char) :
    removeFirstChars (c :: s) old
      = if hasPrefixChars (c :: s) old then (c :: s).drop old.length
        else c :: removeFirstChars s old := by
  rw [removeFirstChars]

theorem hasPrefixChars_append_cases : ∀ (r t u : List Char),
    hasPrefixChars (t ++ u) r = true →
    hasPrefixChars t r = true ∨ ∃ x, x ∈ r ∧ u.head? = some x := by
  intro r
  induction r with
  | nil => intro t u _; left; cases t <;> rfl
  | cons d r ih =>
    intro t u h
    cases t with
    | nil =>
      right
      cases u with
      | nil => simp [hasPrefixChars] at h
      | cons c u =>
        simp only [List.nil_append, hasPrefixChars, Bool.and_eq_true, beq_iff_eq] at h
        exact ⟨c, by simp [h.1], rfl⟩
    | cons c t =>
      simp only [List.cons_append, hasPrefixChars, Bool.and_eq_true, beq_iff_eq] at h
      rcases ih t u h.2 with h1 | ⟨x, hx, hu⟩
      · left; simp [hasPrefixChars, h.1, h1]
      · right; exact ⟨x, List.mem_cons_of_mem _ hx, hu⟩

theorem removeFirstChars_append_self (old : List Char) (q : Char) (rest : List Char)
    (hold : old = q :: rest) (hq : q ∉ rest) :
    ∀ s : List Char, containsChars s old = false → removeFirstChars (s ++ old) old = s := by
  intro s
  induction s with
  | nil =>
    intro _
    have := removeFirstChars_prefix old []
    simpa using this
  | cons c t ih =>
    intro h
    simp only [containsChars, Bool.or_eq_false_iff] at h
    have hno : hasPrefixChars (c :: (t ++ old)) old = false := by
      cases hp : hasPrefixChars (c :: (t ++ old)) old with
      | false => rfl
      | true =>
        exfalso
        rw [hold] at hp
        simp only [hasPrefixChars, Bool.and_eq_true, beq_iff_eq] at hp
        rw [← hold] at hp
        rcases hasPrefixChars_append_cases rest t old hp.2 with h1 | ⟨x, hx, hu⟩
        · have h2 := h.1
          rw [hold] at h2
          simp [hasPrefixChars, hp.1, h1] at h2
        · rw [hold] at hu
          simp only [List.head?_cons, Option.some.injEq] at hu
          rw [← hu] at hx
          exact hq hx
    rw [List.cons_append, removeFirstChars_cons, hno, ih h.2]
    simp

/-- C11: concept-identifier extraction recovers the raw identifier. On the
attribute string prefix + id + suffix the extraction removes the wrapping
prefix exactly and then the first occurrence of the suffix literal in
id + suffix; it returns exactly id for every concept identifier id, that is
for every id that does not contain the suffix literal `', window );` (an
XBRL element name holds no apostrophe, blank, parenthesis or semicolon). -/
theorem C11_identifier_extraction (id : String) :
    xbrlTagOf ("top.Show.showAR( this, '" ++ id ++ "', window );")
      = removeFirst (id ++ "', window );") "', window );" ∧
    (strContains id "', window );" = false →
      xbrlTagOf ("top.Show.showAR( this, '" ++ id ++ "', window );") = id) := by
  have h1 : removeFirst ("top.Show.showAR( this, '" ++ id ++ "', window );")
      "top.Show.showAR( this, '" = id ++ "', window );" := by
    apply String.ext
    simp only [removeFirst, String.data_append, List.append_assoc]
    exact removeFirstChars_prefix _ _
  refine ⟨by simp only [xbrlTagOf, h1], ?_⟩
  intro hc
  simp only [xbrlTagOf, h1]
  apply String.ext
  simp only [removeFirst, String.data_append]
  exact removeFirstChars_append_self _ (Char.ofNat 39) ", window );".data (by decide)
    (by decide) id.data hc

/-- Witness of C11 on a taxonomy identifier. -/
theorem C11_identifier_extraction_witness :
    strContains "us-gaap_CashAndCashEquivalentsAtCarryingValue" "', window );" = false ∧
    xbrlTagOf ("top.Show.showAR( this, '" ++ "us-gaap_CashAndCashEquivalentsAtCarryingValue"
        ++ "', window );")
      = "us-gaap_CashAndCashEquivalentsAtCarryingValue" :=
  ⟨by decide,
   (C11_identifier_extraction "us-gaap_CashAndCashEquivalentsAtCarryingValue").2 (by decide)⟩

theorem bodyRow_tagsData {st st1 : ParseState} {row : Tr} (h : bodyRow st row = .ok st1)
    (hst : ∀ t ∈ st.tags, isDataId t = true) : ∀ t ∈ st1.tags, isDataId t = true := by
  unfold bodyRow at h
  cases hv : rowOnclick row with
  | error e => simp [hv] at h
  | ok v =>
    by_cases hax : strContains (xbrlTagOf v) "Axis" = true
    · simp [hv, hax] at h
      subst h
      exact hst
    · by_cases hab : strContains (xbrlTagOf v) "Abstract" = true
      · simp [hv, hax, hab] at h
        subst h
        exact hst
      · cases hc : cellLoop 0 row.tds st.items st.values false with
        | error e => simp [hv, hax, hab, hc] at h
        | ok p =>
          simp [hv, hax, hab, hc] at h
          subst h
          intro t ht
          simp only [List.mem_append, List.mem_singleton] at ht
          rcases ht with ht | ht
          · exact hst t ht
          · subst ht
            simp [isDataId, hax, hab]

theorem balanceSheetRowLoop_tagsData : ∀ (rows : List Tr) (st st1 : ParseState),
    balanceSheetRowLoop rows st = .ok st1 → (∀ t ∈ st.tags, isDataId t = true) →
    ∀ t ∈ st1.tags, isDataId t = true := by
  intro rows
  induction rows with
  | nil =>
    intro st st1 h hst
    simp only [balanceSheetRowLoop, Except.ok.injEq] at h
    subst h
    exact hst
  | cons r rs ih =>
    intro st st1 h hst
    simp only [balanceSheetRowLoop] at h
    by_cases hf : st.columnHeadersFound = true
    · simp only [hf, Bool.not_true, Bool.false_eq_true, if_false] at h
      cases hb : bodyRow st r with
      | error e => simp [hb] at h
      | ok st2 =>
        simp only [hb] at h
        exact ih st2 st1 h (bodyRow_tagsData hb hst)
    · have hf1 : st.columnHeadersFound = false := by simpa using hf
      simp only [hf1, Bool.not_false, if_true] at h
      cases hi : idx (st.columnHeaders ++ r.ths) 0 with
      | error e => simp [hi] at h
      | ok title =>
        simp only [hi] at h
        exact ih _ st1 h hst

theorem incomeOrCashFlowRowLoop_tagsData : ∀ (rows : List Tr) (st st1 : ParseState),
    incomeOrCashFlowRowLoop rows st = .ok st1 → (∀ t ∈ st.tags, isDataId t = true) →
    ∀ t ∈ st1.tags, isDataId t = true := by
  intro rows
  induction rows with
  | nil =>
    intro st st1 h hst
    simp only [incomeOrCashFlowRowLoop, Except.ok.injEq] at h
    subst h
    exact hst
  | cons r rs ih =>
    intro st st1 h hst
    simp only [incomeOrCashFlowRowLoop] at h
    by_cases hf : st.columnHeadersFound = true
    · simp only [hf, Bool.not_true, Bool.false_eq_true, if_false] at h
      by_cases hd : st.datesFound = true
      · simp only [hd, Bool.not_true, Bool.false_eq_true, if_false] at h
        cases hb : bodyRow st r with
        | error e => simp [hb] at h
        | ok st2 =>
          simp only [hb] at h
          exact ih st2 st1 h (bodyRow_tagsData hb hst)
      · have hd1 : st.datesFound = false := by simpa using hd
        simp only [hd1, Bool.not_false, if_true] at h
        exact ih _ st1 h hst
    · have hf1 : st.columnHeadersFound = false := by simpa using hf
      simp only [hf1, Bool.not_false, if_true] at h
      cases hi : idx (st.columnHeaders ++ r.ths) 0 with
      | error e => simp [hi] at h
      | ok title =>
        cases hj : idx (st.columnHeaders ++ r.ths) 1 with
        | error e => simp [hi, hj] at h
        | ok duration =>
          simp only [hi, hj] at h
          exact ih _ st1 h hst

theorem foldlM_invariant {ε β α : Type} (f : β → α → Except ε β) (Q : β → Prop)
    (hstep : ∀ acc x acc1, f acc x = .ok acc1 → Q acc → Q acc1) :
    ∀ (l : List α) (acc res : β), l.foldlM f acc = .ok res → Q acc → Q res := by
  intro l
  induction l with
  | nil =>
    intro acc res h hq
    simp only [List.foldlM_nil, pure, Except.pure, Except.ok.injEq] at h
    subst h
    exact hq
  | cons y ys ih =>
    intro acc res h hq
    rw [List.foldlM_cons] at h
    cases hy : f acc y with
    | error e => simp [hy, bind, Except.bind] at h
    | ok acc1 =>
      simp only [hy, bind, Except.bind] at h
      exact ih acc1 res h (hstep acc y acc1 hy hq)

theorem idx_mem {α : Type} {xs : List α} {i : Nat} {x : α} (h : idx xs i = .ok x) : x ∈ xs := by
  unfold idx at h
  cases hg : xs[i]? with
  | none => simp [hg] at h
  | some y =>
    simp only [hg, Except.ok.injEq] at h
    subst h
    exact List.getElem?_mem hg

theorem idx_then_ok {α β : Type} {xs : List α} {i : Nat} {next : α → Except Fault β}
    {res : β} (h : (idx xs i >>= next) = .ok res) :
    ∃ x, idx xs i = .ok x ∧ next x = .ok res := by
  cases hx : idx xs i with
  | error e =>
    rw [hx] at h
    cases h
  | ok x =>
    rw [hx] at h
    exact ⟨x, rfl, h⟩

theorem balanceSheetEmit_tag {year qtr cik : String} {st : ParseState} {m : MetaCols}
    {ii i : Nat} {acc acc1 : List BalanceSheetItem}
    (h : balanceSheetEmit year qtr cik st m ii acc i = .ok acc1)
    (hacc : ∀ r ∈ acc, r.Tag ∈ st.tags) : ∀ r ∈ acc1, r.Tag ∈ st.tags := by
  unfold balanceSheetEmit at h
  obtain ⟨date, _, h⟩ := idx_then_ok h
  obtain ⟨item, _, h⟩ := idx_then_ok h
  obtain ⟨col, _, h⟩ := idx_then_ok h
  obtain ⟨value, _, h⟩ := idx_then_ok h
  obtain ⟨axis, _, h⟩ := idx_then_ok h
  obtain ⟨abstract, _, h⟩ := idx_then_ok h
  obtain ⟨tag, htag, h⟩ := idx_then_ok h
  obtain ⟨definition, _, h⟩ := idx_then_ok h
  obtain ⟨dataType, _, h⟩ := idx_then_ok h
  obtain ⟨balanceType, _, h⟩ := idx_then_ok h
  obtain ⟨periodType, _, h⟩ := idx_then_ok h
  simp only [pure, Except.pure, Except.ok.injEq] at h
  subst h
  intro r hr
  simp only [List.mem_append, List.mem_singleton] at hr
  rcases hr with hr | hr
  · exact hacc r hr
  · subst hr
    exact idx_mem htag

theorem incomeOrCashFlowEmit_tag {year qtr cik : String} {st : ParseState} {m : MetaCols}
    {ii i : Nat} {acc acc1 : List IncomeOrCashFlowStatementItem}
    (h : incomeOrCashFlowEmit year qtr cik st m ii acc i = .ok acc1)
    (hacc : ∀ r ∈ acc, r.Tag ∈ st.tags) : ∀ r ∈ acc1, r.Tag ∈ st.tags := by
  unfold incomeOrCashFlowEmit at h
  obtain ⟨date, _, h⟩ := idx_then_ok h
  obtain ⟨item, _, h⟩ := idx_then_ok h
  obtain ⟨col, _, h⟩ := idx_then_ok h
  obtain ⟨value, _, h⟩ := idx_then_ok h
  obtain ⟨axis, _, h⟩ := idx_then_ok h
  obtain ⟨abstract, _, h⟩ := idx_then_ok h
  obtain ⟨tag, htag, h⟩ := idx_then_ok h
  obtain ⟨definition, _, h⟩ := idx_then_ok h
  obtain ⟨dataType, _, h⟩ := idx_then_ok h
  obtain ⟨balanceType, _, h⟩ := idx_then_ok h
  obtain ⟨periodType, _, h⟩ := idx_then_ok h
  simp only [pure, Except.pure, Except.ok.injEq] at h
  subst h
  intro r hr
  simp only [List.mem_append, List.mem_singleton] at hr
  rcases hr with hr | hr
  · exact hacc r hr
  · subst hr
    exact idx_mem htag

theorem parseBalanceSheet_tags (doc : Document) (year qtr cik : String)
    (recs : List BalanceSheetItem) (h : ParseBalanceSheet doc year qtr cik = .ok recs) :
    ∀ r ∈ recs, isDataId r.Tag = true := by
  unfold ParseBalanceSheet at h
  cases ht : doc.table with
  | none => simp [ht] at h
  | some rows =>
    cases hl : balanceSheetRowLoop rows {} with
    | error e => simp [ht, hl] at h
    | ok st1 =>
      cases hm : metadataLoop doc st1.tags {} with
      | error e => simp [ht, hl, hm] at h
      | ok m =>
        simp only [ht, hl, hm] at h
        have htags := balanceSheetRowLoop_tagsData rows {} st1 hl (by intro t ht; cases ht)
        have hq : ∀ r ∈ recs, r.Tag ∈ st1.tags :=
          foldlM_invariant _ (fun acc => ∀ r ∈ acc, r.Tag ∈ st1.tags)
            (fun acc ii acc1 hstep hacc =>
              foldlM_invariant _ (fun acc => ∀ r ∈ acc, r.Tag ∈ st1.tags)
                (fun acc i acc1 hemit hacc => balanceSheetEmit_tag hemit hacc)
                _ acc acc1 hstep hacc)
            _ [] recs h (by intro r hr; cases hr)
        exact fun r hr => htags _ (hq r hr)

theorem parseIncomeOrCashFlowStatement_tags (doc : Document) (year qtr cik : String)
    (recs : List IncomeOrCashFlowStatementItem)
    (h : ParseIncomeOrCashFlowStatement doc year qtr cik = .ok recs) :
    ∀ r ∈ recs, isDataId r.Tag = true := by
  unfold ParseIncomeOrCashFlowStatement at h
  cases ht : doc.table with
  | none => simp [ht] at h
  | some rows =>
    cases hl : incomeOrCashFlowRowLoop rows {} with
    | error e => simp [ht, hl] at h
    | ok st1 =>
      cases hm : metadataLoop doc st1.tags {} with
      | error e => simp [ht, hl, hm] at h
      | ok m =>
        simp only [ht, hl, hm] at h
        have htags := incomeOrCashFlowRowLoop_tagsData rows {} st1 hl (by intro t ht; cases ht)
        have hq : ∀ r ∈ recs, r.Tag ∈ st1.tags :=
          foldlM_invariant _ (fun acc => ∀ r ∈ acc, r.Tag ∈ st1.tags)
            (fun acc ii acc1 hstep hacc =>
              foldlM_invariant _ (fun acc => ∀ r ∈ acc, r.Tag ∈ st1.tags)
                (fun acc i acc1 hemit hacc => incomeOrCashFlowEmit_tag hemit hacc)
                _ acc acc1 hstep hacc)
            _ [] recs h (by intro r hr; cases hr)
        exact fun r hr => htags _ (hq r hr)

/-- C12: whenever `ParseBalanceSheet` or `ParseIncomeOrCashFlowStatement`
returns, no emitted record has a Tag containing "Axis" or "Abstract". A row
whose identifier contains "Axis" anywhere (with or without "Abstract") is
consumed as an Axis marker: it only sets the current Axis and leaves the
current Abstract and every accumulator unchanged. A row whose identifier
contains "Abstract" and not "Axis" is consumed as an Abstract marker: it only
sets the current Abstract. -/
theorem C12_no_marker_tags (doc : Document) (year qtr cik : String) :
    (∀ recs, ParseBalanceSheet doc year qtr cik = .ok recs →
      ∀ r ∈ recs, strContains r.Tag "Axis" = false ∧ strContains r.Tag "Abstract" = false) ∧
    (∀ recs, ParseIncomeOrCashFlowStatement doc year qtr cik = .ok recs →
      ∀ r ∈ recs, strContains r.Tag "Axis" = false ∧ strContains r.Tag "Abstract" = false) ∧
    (∀ (st : ParseState) (row : Tr), hasId row = true →
      strContains (rowId row) "Axis" = true →
      bodyRow st row = .ok { st with axis := rowId row }) ∧
    (∀ (st : ParseState) (row : Tr), hasId row = true →
      strContains (rowId row) "Axis" = false → strContains (rowId row) "Abstract" = true →
      bodyRow st row = .ok { st with abstract := rowId row }) := by
  refine ⟨?_, ?_, ?_, ?_⟩
  · intro recs h r hr
    have := parseBalanceSheet_tags doc year qtr cik recs h r hr
    simpa [isDataId] using this
  · intro recs h r hr
    have := parseIncomeOrCashFlowStatement_tags doc year qtr cik recs h r hr
    simpa [isDataId] using this
  · intro st row hid hax
    obtain ⟨v, hv, hrid⟩ := hasId_elim hid
    rw [hrid] at hax ⊢
    simp [bodyRow, hv, hax]
  · intro st row hid hax hab
    obtain ⟨v, hv, hrid⟩ := hasId_elim hid
    rw [hrid] at hax hab ⊢
    simp [bodyRow, hv, hax, hab]

/-- Witness of C12: after the Abstract marker `AssetsAbstract`, the row
`LegalEntityAxisAbstract`, whose identifier holds both substrings, sets the
Axis and leaves the Abstract; the only record is that of `Cash`. -/
theorem C12_no_marker_tags_witness :
    (∃ recs, ParseBalanceSheet bothMarkersDoc "2020" "4" "320193" = .ok recs ∧
      recs.map (fun r => (r.Tag, r.Axis, r.Abstract))
        = [("Cash", "LegalEntityAxisAbstract", "AssetsAbstract")] ∧
      ∀ r ∈ recs, strContains r.Tag "Axis" = false ∧ strContains r.Tag "Abstract" = false) ∧
    (ParseIncomeOrCashFlowStatement bothMarkersDurationDoc "2020" "4" "320193").map
        (List.map fun r => (r.Tag, r.Axis, r.Abstract))
      = .ok [("Cash", "LegalEntityAxisAbstract", "AssetsAbstract")] ∧
    bodyRow { abstract := "AssetsAbstract" }
        ⟨[], [labelTd "Legal Entity [Axis]" "LegalEntityAxisAbstract"]⟩
      = .ok { abstract := "AssetsAbstract", axis := "LegalEntityAxisAbstract" } :=
  ⟨⟨[BalanceSheetItem.mk "2020" "4" "320193" "Balance Sheet" "Dec. 31, 2020" "Cash" "100"
        "LegalEntityAxisAbstract" "AssetsAbstract" "Cash" "Amount of currency on hand."
        "xbrli:monetaryItemType" "debit" "instant"],
     by rfl, by rfl,
     (C12_no_marker_tags bothMarkersDoc "2020" "4" "320193").1 _ (by rfl)⟩,
   by rfl,
   (C12_no_marker_tags bothMarkersDoc "2020" "4" "320193").2.2.1 { abstract := "AssetsAbstract" }
     ⟨[], [labelTd "Legal Entity [Axis]" "LegalEntityAxisAbstract"]⟩ (by decide) (by decide)⟩

end Sampada
